import Mathlib

/-!
Shallow embedding of `src/instagram_downloader.py` (Instagram Video Downloader
API).  The embedding covers the identifier extractor
(`extract_instagram_shortcode`), the three download strategies
(`download_with_ytdlp_enhanced`, `download_with_requests`,
`download_with_instaloader_like`) and the `/download` orchestrator handler.

Modelling conventions:
* Python/JSON values are the inductive `PyVal`; dynamic operations
  (`in`, `len`, subscripting, `.get`, truthiness) are translated faithfully,
  raising the corresponding Python exception in the `Except PyErr` monad
  wherever the real operation would raise (`TypeError`, `KeyError`, ...).
* All I/O nondeterminism (the yt-dlp engine, HTTP responses, the file system,
  `random.choice` over `USER_AGENTS`) is supplied by a `World` record.  An
  HTTP response carries its status, its JSON-parsed body (`none` when the
  body is not valid JSON, i.e. `response.json()` raises `JSONDecodeError`),
  the list of parsed `application/ld+json` blocks that the HTML-scraping
  regex pipeline would produce (each `none` when `json.loads` fails), and
  the byte sizes of the chunks yielded by `iter_content`.
* Python's regex `\w` is modelled at its ASCII core
  (letters, digits, underscore); every input of interest here is ASCII.
* Strategies report, next to their returned value, the HTTP requests they
  issued and the files they wrote, so `never invoked` / `file exists`
  properties are expressible.
-/

/-- Python / JSON values as they flow through the script. -/
inductive PyVal where
  | vnull
  | vbool (b : Bool)
  | vint (n : Int)
  | vstr (s : String)
  | vlist (elems : List PyVal)
  | vdict (entries : List (String × PyVal))

/-- The Python exceptions that the modelled code can raise. -/
inductive PyErr where
  | typeError
  | keyError
  | indexError
  | attrError
  | osError
  | jsonError
  | downloadError
  | engineError
deriving DecidableEq

/-- Association-list lookup for `PyVal.vdict` entries (Python dict lookup). -/
def dictLookup : List (String × PyVal) → String → Option PyVal
  | [], _ => none
  | (k2, v) :: rest, k => if k2 = k then some v else dictLookup rest k

/-- The keys of a dict value, in insertion order (Python `dict.keys()`). -/
def pyKeys : PyVal → List String
  | .vdict d => d.map Prod.fst
  | _ => []

/-- Lookup of a key in a dict value; `none` for non-dicts or absent keys. -/
def pyLookup (v : PyVal) (k : String) : Option PyVal :=
  match v with
  | .vdict d => dictLookup d k
  | _ => none

/-- Python truthiness (`bool(v)`). -/
def pyTruthy : PyVal → Bool
  | .vnull => false
  | .vbool b => b
  | .vint n => if n = 0 then false else true
  | .vstr s => if s = "" then false else true
  | .vlist l => !l.isEmpty
  | .vdict d => !d.isEmpty

/-- Substring test on char lists (Python `needle in hay` for strings). -/
def infixCheck (needle : List Char) : List Char → Bool
  | [] => needle.isEmpty
  | c :: t => needle.isPrefixOf (c :: t) || infixCheck needle t

/-- Python `needle in hay` for strings. -/
def strContains (needle hay : String) : Bool :=
  infixCheck needle.toList hay.toList

/-- Python string equality against a `PyVal` element (used by `in` on lists). -/
def eqStrVal (v : PyVal) (s : String) : Bool :=
  match v with
  | .vstr s2 => s2 = s
  | _ => false

/-- Python `needle in v` for a string needle; raises `TypeError` on
non-container values exactly as Python does. -/
def pyContains (needle : String) (v : PyVal) : Except PyErr Bool :=
  match v with
  | .vstr s => .ok (strContains needle s)
  | .vlist l => .ok (l.any (fun e => eqStrVal e needle))
  | .vdict d => .ok (dictLookup d needle).isSome
  | _ => .error .typeError

/-- Python `len(v)`; raises `TypeError` on unsized values. -/
def pyLen : PyVal → Except PyErr Nat
  | .vstr s => .ok s.length
  | .vlist l => .ok l.length
  | .vdict d => .ok d.length
  | _ => .error .typeError

/-- Python `v[k]` with a string key; `KeyError` on a dict miss, `TypeError`
on values that do not take string subscripts. -/
def pyGetItem (v : PyVal) (k : String) : Except PyErr PyVal :=
  match v with
  | .vdict d =>
    match dictLookup d k with
    | some r => .ok r
    | none => .error .keyError
  | _ => .error .typeError

/-- Python `v[i]` with an integer index; dicts in this script only carry
string keys, so an integer subscript on them is a `KeyError`. -/
def pyIndex (v : PyVal) (i : Nat) : Except PyErr PyVal :=
  match v with
  | .vlist l =>
    match l.get? i with
    | some r => .ok r
    | none => .error .indexError
  | .vstr s =>
    match s.toList.get? i with
    | some c => .ok (.vstr (String.mk [c]))
    | none => .error .indexError
  | .vdict _ => .error .keyError
  | _ => .error .typeError

/-- Python `v.get(k, default)`; only dicts have `.get`, anything else raises
`AttributeError`. -/
def pyGet (v : PyVal) (k : String) (default : PyVal) : Except PyErr PyVal :=
  match v with
  | .vdict d => .ok ((dictLookup d k).getD default)
  | _ => .error .attrError

/-- Python `str(v)` as used by the f-strings of the script (container
representations are abstracted; the script only formats scalars). -/
def pyStr : PyVal → String
  | .vnull => "None"
  | .vbool true => "True"
  | .vbool false => "False"
  | .vint n => toString n
  | .vstr s => s
  | .vlist _ => "<list>"
  | .vdict _ => "<dict>"

/-- `requests.get` needs a string URL; any other value raises before any
request is made (modelled as a `TypeError`). -/
def pyStrUrl : PyVal → Except PyErr String
  | .vstr s => .ok s
  | _ => .error .typeError

/-! ## Identifier extraction (`extract_instagram_shortcode`, lines 59-70)

The two patterns
`instagram\.com/(?:p|reel|tv|reels)/([\w-]+)` and
`instagram\.com/[\w.]+/(?:p|reel)/([\w-]+)` are tried in order with
`re.search` semantics: the match is attempted at every start position from
the left, alternatives are tried in written order with backtracking, and the
capture group `[\w-]+` is a greedy nonempty run.  `[\w.]+` never benefits
from backtracking because `.`/`\w` are disjoint from the `/` that must
follow, so only its maximal run matters. -/

/-- ASCII core of Python's regex `\w`. -/
def isWordChar (c : Char) : Bool := c.isAlphanum || c = '_'

/-- The character class `[\w-]`. -/
def isWordDash (c : Char) : Bool := isWordChar c || c = '-'

/-- The character class `[\w.]`. -/
def isWordDot (c : Char) : Bool := isWordChar c || c = '.'

/-- Strip a literal from the front of a char list, or fail. -/
def stripPre : List Char → List Char → Option (List Char)
  | [], s => some s
  | _ :: _, [] => none
  | a :: as, b :: bs => if a = b then stripPre as bs else none

/-- The literal `instagram.com/` that both patterns start with. -/
def litList : List Char := ['i','n','s','t','a','g','r','a','m','.','c','o','m','/']

/-- Try keyword alternatives in order; each must be followed by `/` and a
nonempty greedy `[\w-]+` capture, otherwise the next alternative is tried
(regex alternation with backtracking). -/
def matchKeywordCapture : List (List Char) → List Char → Option (List Char)
  | [], _ => none
  | kw :: kws, s =>
    match stripPre (kw ++ ['/']) s with
    | some rest =>
      let cap := rest.takeWhile isWordDash
      if cap.isEmpty then matchKeywordCapture kws s else some cap
    | none => matchKeywordCapture kws s

/-- Keyword alternatives of the first pattern: `p|reel|tv|reels`. -/
def kws1 : List (List Char) := [['p'], ['r','e','e','l'], ['t','v'], ['r','e','e','l','s']]

/-- Keyword alternatives of the second pattern: `p|reel`. -/
def kws2 : List (List Char) := [['p'], ['r','e','e','l']]

/-- Attempt of pattern 1 at one start position. -/
def p1At (s : List Char) : Option (List Char) :=
  match stripPre litList s with
  | none => none
  | some rest => matchKeywordCapture kws1 rest

/-- Attempt of pattern 2 at one start position: `[\w.]+` (a maximal nonempty
run), then `/`, then `p|reel`, then `/` and the capture. -/
def p2At (s : List Char) : Option (List Char) :=
  match stripPre litList s with
  | none => none
  | some rest =>
    if (rest.takeWhile isWordDot).isEmpty then none
    else
      match rest.dropWhile isWordDot with
      | '/' :: r2 => matchKeywordCapture kws2 r2
      | _ => none

/-- `re.search`: try the pattern at every start position, left to right. -/
def searchAux (pAt : List Char → Option (List Char)) : List Char → Option (List Char)
  | [] => none
  | c :: t =>
    match pAt (c :: t) with
    | some r => some r
    | none => searchAux pAt t

/-- `extract_instagram_shortcode` (lines 59-70): first capture of the first
pattern that matches anywhere in the URL, else `None`. -/
def extract_instagram_shortcode (url : String) : Option String :=
  match searchAux p1At url.toList with
  | some cap => some (String.mk cap)
  | none =>
    match searchAux p2At url.toList with
    | some cap => some (String.mk cap)
    | none => none

/-! ## The world: engine, network, file system -/

/-- One HTTP response as the script observes it. -/
structure Fetch where
  status : Nat
  body : Option PyVal
  ldBlocks : List (Option PyVal)
  chunks : List Nat

/-- All external nondeterminism of one `/download` request. -/
structure World where
  uaA : String
  uaB : String
  uaC : String
  ydl : Except PyErr PyVal
  fs : String → Option Nat
  reqGet : String → Fetch

/-- An HTTP request issued by a strategy. -/
structure ReqEvent where
  url : String
  headers : List (String × String)

/-- What one strategy invocation produces: its return value (`None` or a
result dict), the requests it issued and the files it wrote. -/
structure StrategyOut where
  result : Option PyVal
  requests : List ReqEvent
  writes : List (String × Nat)

/-- The shared output directory (`download_dir`, line 43; the absolute
`os.getcwd()` part is irrelevant to the claims). -/
def download_dir : String := "downloads"

/-! ## Strategy (a): `download_with_ytdlp_enhanced` (lines 72-141) -/

/-- Body of the `try` block of strategy (a): run the engine, derive the
output path from the reported id/ext (with fallbacks), and succeed only if
the file exists on disk (lines 114-132); otherwise fall through to the
`return None` at line 141. -/
def stratA_try (shortcode : String) (w : World) : Except PyErr (Option PyVal) := do
  let info ← w.ydl
  let vid ← pyGet info "id" (.vstr shortcode)
  let ext ← pyGet info "ext" (.vstr "mp4")
  let filename := pyStr vid ++ "." ++ pyStr ext
  let filepath := download_dir ++ "/" ++ filename
  if (w.fs filepath).isSome then do
    let title ← pyGet info "title" (.vstr "Instagram Video")
    let author ← pyGet info "uploader" (.vstr "Unknown")
    let caption ← pyGet info "description" (.vstr "No caption available")
    let thumb ← pyGet info "thumbnail" (.vstr "")
    pure (some (.vdict [("success", .vbool true), ("filepath", .vstr filepath),
      ("filename", .vstr filename), ("title", title), ("author", author),
      ("caption", caption), ("thumbnail", thumb),
      ("method", .vstr "ytdlp_enhanced")]))
  else
    pure none

/-- Strategy (a) (lines 72-141): the engine call plus the
`except DownloadError` / `except Exception` handlers, both of which swallow
the error and let the function return `None`.  The engine's own downloads
are already reflected in `World.fs`. -/
def download_with_ytdlp_enhanced (url shortcode : String) (w : World) : StrategyOut :=
  match stratA_try shortcode w with
  | .ok v => ⟨v, [], []⟩
  | .error _ => ⟨none, [], []⟩

/-! ## Strategy (b): `download_with_requests` (lines 143-236) -/

/-- The two endpoint templates of lines 152-155. -/
def apiUrls (shortcode : String) : List String :=
  ["https://www.instagram.com/p/" ++ shortcode ++ "/?__a=1&__d=dis",
   "https://www.instagram.com/reel/" ++ shortcode ++ "/?__a=1&__d=dis"]

/-- The headers of lines 160-173 (one user agent chosen before the loop). -/
def bHeaders (ua shortcode : String) : List (String × String) :=
  [("User-Agent", ua), ("Accept", "*/*"), ("Accept-Language", "en-US,en;q=0.9"),
   ("Accept-Encoding", "gzip, deflate, br"), ("X-IG-App-ID", "936619743392459"),
   ("X-ASBD-ID", "198387"), ("X-IG-WWW-Claim", "0"),
   ("Origin", "https://www.instagram.com"),
   ("Referer", "https://www.instagram.com/p/" ++ shortcode ++ "/"),
   ("Sec-Fetch-Dest", "empty"), ("Sec-Fetch-Mode", "cors"),
   ("Sec-Fetch-Site", "same-origin")]

/-- `if 'items' in data and len(data['items']) > 0: media = data['items'][0]
elif 'graphql' in data: media = data['graphql']['shortcode_media']
else: continue` (lines 182-187).  `none` means `continue`. -/
def mediaOf (data : PyVal) : Except PyErr (Option PyVal) := do
  let h ← pyContains "items" data
  let cond1 ← if h then do
      let it ← pyGetItem data "items"
      let n ← pyLen it
      pure (decide (0 < n))
    else pure false
  if cond1 then do
    let it ← pyGetItem data "items"
    let m ← pyIndex it 0
    pure (some m)
  else do
    let h2 ← pyContains "graphql" data
    if h2 then do
      let g ← pyGetItem data "graphql"
      let m ← pyGetItem g "shortcode_media"
      pure (some m)
    else
      pure none

/-- Video URL resolution of lines 190-194; `vnull` when no URL was found. -/
def videoUrlOf (media : PyVal) : Except PyErr PyVal := do
  let h ← pyContains "video_url" media
  if h then
    pyGetItem media "video_url"
  else do
    let h2 ← pyContains "video_versions" media
    if h2 then do
      let vv ← pyGetItem media "video_versions"
      let n ← pyLen vv
      if 0 < n then do
        let v0 ← pyIndex vv 0
        pyGetItem v0 "url"
      else
        pure .vnull
    else
      pure .vnull

/-- Caption extraction of lines 198-204 (initial value `""`). -/
def captionOf (media : PyVal) : Except PyErr PyVal := do
  let h ← pyContains "caption" media
  let c1 ← if h then do
      let cv ← pyGetItem media "caption"
      pure (pyTruthy cv)
    else pure false
  if c1 then do
    let cv ← pyGetItem media "caption"
    pyGet cv "text" (.vstr "")
  else do
    let h2 ← pyContains "edge_media_to_caption" media
    if h2 then do
      let emc ← pyGetItem media "edge_media_to_caption"
      let edges ← pyGet emc "edges" (.vlist [])
      if pyTruthy edges then do
        let e0 ← pyIndex edges 0
        let node ← pyGetItem e0 "node"
        pyGetItem node "text"
      else
        pure (.vstr "")
    else
      pure (.vstr "")

/-- Author extraction of line 207: `media.get('owner', {}).get('username', 'Unknown')`. -/
def authorOfB (media : PyVal) : Except PyErr PyVal := do
  let owner ← pyGet media "owner" (.vdict [])
  pyGet owner "username" (.vstr "Unknown")

/-- `caption or 'No caption available'` (line 226). -/
def normCaption (c : PyVal) : PyVal :=
  if pyTruthy c then c else .vstr "No caption available"

/-- The success dict of lines 220-228. -/
def mkResultB (shortcode : String) (author cap : PyVal) : PyVal :=
  .vdict [("success", .vbool true),
    ("filepath", .vstr (download_dir ++ "/" ++ shortcode ++ ".mp4")),
    ("filename", .vstr (shortcode ++ ".mp4")),
    ("title", .vstr ("Instagram Video - " ++ shortcode)),
    ("author", author), ("caption", normCaption cap),
    ("method", .vstr "direct_api")]

/-- Outcome of the parsed-JSON part of one endpoint iteration: a success
result (with the video request and the file write it performed), or a fall
through to the next endpoint (with any video request it made). -/
inductive EpInner where
  | found (res : PyVal) (vreq : ReqEvent) (write : String × Nat)
  | next (extra : List ReqEvent)

/-- Lines 182-228: everything inside the per-endpoint `try` after the body
parsed as JSON.  Errors here are Python exceptions other than
`JSONDecodeError`; they escape the endpoint loop. -/
def epCore (shortcode : String) (hdrs : List (String × String)) (w : World)
    (data : PyVal) : Except PyErr EpInner := do
  match ← mediaOf data with
  | none => pure (.next [])
  | some media => do
    let vurl ← videoUrlOf media
    if pyTruthy vurl then do
      let cap ← captionOf media
      let author ← authorOfB media
      let us ← pyStrUrl vurl
      let vresp := w.reqGet us
      let vreq : ReqEvent := ⟨us, hdrs⟩
      if vresp.status = 200 then
        pure (.found (mkResultB shortcode author cap) vreq
          (download_dir ++ "/" ++ shortcode ++ ".mp4", vresp.chunks.sum))
      else
        pure (.next [vreq])
    else
      pure (.next [])

/-- Result of the endpoint loop: the value the `try` block produces (or the
exception escaping it), plus all requests and writes performed. -/
structure LoopOut where
  result : Except PyErr (Option PyVal)
  requests : List ReqEvent
  writes : List (String × Nat)

/-- The `for api_url in api_urls` loop of lines 159-231.  A non-200 status
or a `JSONDecodeError` moves to the next endpoint; any other exception
escapes; falling off the loop yields `None` (line 236 via line 233). -/
def runEndpoints (shortcode : String) (hdrs : List (String × String))
    (w : World) : List String → LoopOut
  | [] => ⟨.ok none, [], []⟩
  | u :: rest =>
    let req : ReqEvent := ⟨u, hdrs⟩
    let resp := w.reqGet u
    if resp.status = 200 then
      match resp.body with
      | none =>
        let lo := runEndpoints shortcode hdrs w rest
        ⟨lo.result, req :: lo.requests, lo.writes⟩
      | some data =>
        match epCore shortcode hdrs w data with
        | .error e => ⟨.error e, [req], []⟩
        | .ok (.found res vreq wr) => ⟨.ok (some res), [req, vreq], [wr]⟩
        | .ok (.next extra) =>
          let lo := runEndpoints shortcode hdrs w rest
          ⟨lo.result, req :: (extra ++ lo.requests), lo.writes⟩
    else
      let lo := runEndpoints shortcode hdrs w rest
      ⟨lo.result, req :: lo.requests, lo.writes⟩

/-- Body of the `try` block of strategy (b). -/
def stratB_try (shortcode : String) (w : World) : LoopOut :=
  runEndpoints shortcode (bHeaders w.uaB shortcode) w (apiUrls shortcode)

/-- Strategy (b) (lines 143-236): the endpoint loop wrapped in
`except Exception`, which converts any escaped error into `None`. -/
def download_with_requests (url shortcode : String) (w : World) : StrategyOut :=
  let lo := stratB_try shortcode w
  ⟨match lo.result with | .ok v => v | .error _ => none, lo.requests, lo.writes⟩

/-! ## Strategy (c): `download_with_instaloader_like` (lines 238-297) -/

/-- The headers of lines 247-254. -/
def cHeaders (ua : String) : List (String × String) :=
  [("User-Agent", ua),
   ("Accept", "text/html,application/xhtml+xml,application/xml;q=0.9,image/webp,*/*;q=0.8"),
   ("Accept-Language", "en-US,en;q=0.5"), ("DNT", "1"),
   ("Connection", "keep-alive"), ("Upgrade-Insecure-Requests", "1")]

/-- The success dict of lines 282-290. -/
def mkResultC (shortcode : String) (title author caption : PyVal) : PyVal :=
  .vdict [("success", .vbool true),
    ("filepath", .vstr (download_dir ++ "/" ++ shortcode ++ ".mp4")),
    ("filename", .vstr (shortcode ++ ".mp4")),
    ("title", title), ("author", author), ("caption", caption),
    ("method", .vstr "html_scraping")]

/-- Lines 268-290: handling of one successfully parsed ld+json block. -/
def cCore (shortcode : String) (hdrs : List (String × String)) (w : World)
    (data : PyVal) : Except PyErr EpInner := do
  let h ← pyContains "video" data
  let cond ← if h then do
      let v ← pyGetItem data "video"
      pure (match v with | .vdict _ => true | _ => false)
    else pure false
  if cond then do
    let v ← pyGetItem data "video"
    let vurl ← pyGet v "contentUrl" .vnull
    if pyTruthy vurl then do
      let us ← pyStrUrl vurl
      let vresp := w.reqGet us
      let vreq : ReqEvent := ⟨us, hdrs⟩
      if vresp.status = 200 then do
        let title ← pyGet data "caption" (.vstr "Instagram Video")
        let authObj ← pyGet data "author" (.vdict [])
        let author ← pyGet authObj "name" (.vstr "Unknown")
        let caption ← pyGet data "caption" (.vstr "No caption available")
        pure (.found (mkResultC shortcode title author caption) vreq
          (download_dir ++ "/" ++ shortcode ++ ".mp4", vresp.chunks.sum))
      else
        pure (.next [vreq])
    else
      pure (.next [])
  else
    pure (.next [])

/-- The `for match in matches` loop of lines 265-292: a block that fails to
parse is skipped (`except json.JSONDecodeError: continue`); any other
exception escapes to the strategy's outer handler. -/
def scanBlocks (shortcode : String) (hdrs : List (String × String))
    (w : World) : List (Option PyVal) → LoopOut
  | [] => ⟨.ok none, [], []⟩
  | none :: rest => scanBlocks shortcode hdrs w rest
  | some data :: rest =>
    match cCore shortcode hdrs w data with
    | .error e => ⟨.error e, [], []⟩
    | .ok (.found res vreq wr) => ⟨.ok (some res), [vreq], [wr]⟩
    | .ok (.next extra) =>
      let lo := scanBlocks shortcode hdrs w rest
      ⟨lo.result, extra ++ lo.requests, lo.writes⟩

/-- Body of the `try` block of strategy (c): fetch the post page and scan
its ld+json blocks. -/
def stratC_try (shortcode : String) (w : World) : LoopOut :=
  let hdrs := cHeaders w.uaC
  let post_url := "https://www.instagram.com/p/" ++ shortcode ++ "/"
  let pageReq : ReqEvent := ⟨post_url, hdrs⟩
  let resp := w.reqGet post_url
  if resp.status = 200 then
    let lo := scanBlocks shortcode hdrs w resp.ldBlocks
    ⟨lo.result, pageReq :: lo.requests, lo.writes⟩
  else
    ⟨.ok none, [pageReq], []⟩

/-- Strategy (c) (lines 238-297): the page scan wrapped in
`except Exception`, which converts any escaped error into `None`. -/
def download_with_instaloader_like (url shortcode : String) (w : World) : StrategyOut :=
  let lo := stratC_try shortcode w
  ⟨match lo.result with | .ok v => v | .error _ => none, lo.requests, lo.writes⟩

/-! ## The `/download` orchestrator (lines 320-400) -/

/-- Names logged by the method loop (lines 354-358). -/
def nameA : String := "Enhanced yt-dlp"

/-- Name of the second method. -/
def nameB : String := "Direct API"

/-- Name of the third method. -/
def nameC : String := "HTML Scraping"

/-- Outcome of one mocked or real method invocation. -/
inductive MOutcome where
  | ok (v : Option PyVal)
  | exc (e : PyErr)

/-- `result and result.get('success')` (lines 365 and 372): short-circuit
truthiness, then `.get`, which raises on non-dict results. -/
def resultCheck (v : Option PyVal) : Except PyErr Bool :=
  match v with
  | none => .ok false
  | some pv =>
    if pyTruthy pv then do
      let s ← pyGet pv "success" .vnull
      pure (pyTruthy s)
    else
      .ok false

/-- The method loop of lines 360-370: invoke each method in order; break on
the first truthy success; a raised exception (or a failing success check)
moves on, leaving `result` at its previous value in the exception case.
Returns the final `result` and the list of invoked method names. -/
def runMethods : List (String × MOutcome) → Option PyVal → Option PyVal × List String
  | [], acc => (acc, [])
  | (nm, m) :: rest, acc =>
    match m with
    | .exc _ =>
      let r := runMethods rest acc
      (r.1, nm :: r.2)
    | .ok v =>
      match resultCheck v with
      | .error _ =>
        let r := runMethods rest v
        (r.1, nm :: r.2)
      | .ok true => (v, [nm])
      | .ok false =>
        let r := runMethods rest v
        (r.1, nm :: r.2)

/-- What the handler returns: HTTP status, JSON content, and the names of
the strategies that were invoked. -/
structure HandlerOut where
  status : Nat
  content : PyVal
  trace : List String

/-- A one-key error body, as built by the validation branches. -/
def errContent (msg : String) : PyVal := .vdict [("error", .vstr msg)]

/-- Abstracted `str(e)` of the outer `except` (line 398); the claims do not
depend on the exact exception text. -/
def errMsg : PyErr → String
  | .typeError => "TypeError"
  | .keyError => "KeyError"
  | .indexError => "IndexError"
  | .attrError => "AttributeError"
  | .osError => "OSError"
  | .jsonError => "JSONDecodeError"
  | .downloadError => "DownloadError"
  | .engineError => "EngineError"

/-- The 500 response of lines 395-400. -/
def internalError (e : PyErr) (trace : List String) : HandlerOut :=
  ⟨500, errContent ("Internal server error: " ++ errMsg e), trace⟩

/-- The generic failure message of line 389. -/
def exhaustionError : String :=
  "Unable to download video. This might be a private post, age-restricted content, or Instagram has blocked the request. Try with a different public Instagram video."

/-- The multi-line suggestion string of line 390. -/
def exhaustionSuggestion : String :=
  "Make sure the Instagram post is:\n1. Public (not private account)\n2. Not age-restricted\n3. Not deleted\n4. Accessible without login in your browser\n\nNote: Some videos may be blocked on hosted servers. If this persists, the video might require login to view."

/-- The exhaustion response of lines 386-393. -/
def exhaustionOut (trace : List String) : HandlerOut :=
  ⟨400, .vdict [("error", .vstr exhaustionError),
    ("suggestion", .vstr exhaustionSuggestion)], trace⟩

/-- Overlay the writes performed by the strategies onto the file system. -/
def applyWrites (fs : String → Option Nat) : List (String × Nat) → (String → Option Nat)
  | [] => fs
  | (p, n) :: rest => applyWrites (fun q => if q = p then some n else fs q) rest

/-- Only strategies that were actually invoked have performed their writes. -/
def writesOfInvoked (trace : List String) (a b c : StrategyOut) : List (String × Nat) :=
  (if trace.contains nameA then a.writes else []) ++
  (if trace.contains nameB then b.writes else []) ++
  (if trace.contains nameC then c.writes else [])

/-- The success response of lines 372-385: `os.path.getsize` on the result's
file path (an `OSError` if the file is gone), then the response dict with
its `.get` defaults. -/
def buildSuccess (r : PyVal) (fs : String → Option Nat) : Except PyErr PyVal := do
  let fp ← pyGetItem r "filepath"
  let fpS ← pyStrUrl fp
  let size ← match fs fpS with
    | some n => Except.ok n
    | none => Except.error PyErr.osError
  let fn ← pyGetItem r "filename"
  let title ← pyGet r "title" (.vstr "Instagram Video")
  let author ← pyGet r "author" (.vstr "Unknown")
  let thumb ← pyGet r "thumbnail" (.vstr "")
  let caption ← pyGet r "caption" (.vstr "No caption available")
  let method ← pyGet r "method" (.vstr "unknown")
  pure (.vdict [("success", .vbool true),
    ("video", .vstr ("/downloads/" ++ pyStr fn)),
    ("title", title), ("author", author), ("thumbnail", thumb),
    ("filename", fn), ("caption", caption),
    ("file_size", .vint (Int.ofNat size)), ("method", method)])

/-- Lines 353-393: run the three strategies through the fallback loop and
build the final response. -/
def handlerCore (u shortcode : String) (w : World) : HandlerOut :=
  let a := download_with_ytdlp_enhanced u shortcode w
  let b := download_with_requests u shortcode w
  let c := download_with_instaloader_like u shortcode w
  let rm := runMethods [(nameA, .ok a.result), (nameB, .ok b.result),
    (nameC, .ok c.result)] none
  let fsAfter := applyWrites w.fs (writesOfInvoked rm.2 a b c)
  match rm.1 with
  | none => exhaustionOut rm.2
  | some r =>
    match resultCheck (some r) with
    | .error e => internalError e rm.2
    | .ok false => exhaustionOut rm.2
    | .ok true =>
      match buildSuccess r fsAfter with
      | .ok content => ⟨200, content, rm.2⟩
      | .error e => internalError e rm.2

/-- The `/download` handler (lines 320-400).  `body` is the JSON-parsed
request body (`none` when `await request.json()` raises, which the outer
`except` turns into a 500). -/
def download_handler (body : Option PyVal) (w : World) : HandlerOut :=
  match body with
  | none => internalError .jsonError []
  | some data =>
    match pyGet data "url" .vnull with
    | .error e => internalError e []
    | .ok urlv =>
      if pyTruthy urlv = false then ⟨400, errContent "No URL provided", []⟩
      else
        match pyContains "instagram.com" urlv with
        | .error e => internalError e []
        | .ok c =>
          if c = false then ⟨400, errContent "Invalid Instagram URL", []⟩
          else
            match urlv with
            | .vstr u =>
              match extract_instagram_shortcode u with
              | none => ⟨400, errContent "Could not extract video ID from URL", []⟩
              | some shortcode => handlerCore u shortcode w
            | _ => internalError .typeError []

/-! ## Concrete worlds used by counterexamples and witnesses -/

/-- A world in which the engine fails and every HTTP request returns 404. -/
def wFail : World :=
  ⟨"ua", "ua", "ua", .error .downloadError, fun _ => none, fun _ => ⟨404, none, [], []⟩⟩

/-- A well-shaped `graphql` payload with a direct video URL and an owner. -/
def goodGraphql : PyVal :=
  .vdict [("graphql", .vdict [("shortcode_media",
    .vdict [("video_url", .vstr "https://cdn.example/v.mp4"),
            ("owner", .vdict [("username", .vstr "alice")])])])]

/-- A world in which the first endpoint answers 200 with `{"items": 5}`
(`len(data['items'])` raises `TypeError`) while the second endpoint would
answer with a perfectly usable payload. -/
def w8 : World :=
  ⟨"ua", "ua", "ua", .error .downloadError, fun _ => none,
   fun u =>
     if u = "https://www.instagram.com/p/ABC/?__a=1&__d=dis" then
       ⟨200, some (.vdict [("items", .vint 5)]), [], []⟩
     else if u = "https://www.instagram.com/reel/ABC/?__a=1&__d=dis" then
       ⟨200, some goodGraphql, [], []⟩
     else if u = "https://cdn.example/v.mp4" then ⟨200, none, [], [4, 4]⟩
     else ⟨404, none, [], []⟩⟩

/-- A world in which strategy (b) succeeds on its first endpoint. -/
def wB0 : World :=
  ⟨"ua", "ua", "ua", .error .downloadError, fun _ => none,
   fun u =>
     if u = "https://www.instagram.com/p/ABC/?__a=1&__d=dis" then
       ⟨200, some goodGraphql, [], []⟩
     else if u = "https://cdn.example/v.mp4" then ⟨200, none, [], [5, 3]⟩
     else ⟨404, none, [], []⟩⟩

/-- A world in which the engine reports success and the reported output file
exists on disk with size 0. -/
def wA0 : World :=
  ⟨"ua", "ua", "ua", .ok (.vdict [("id", .vstr "ABC"), ("ext", .vstr "mp4")]),
   fun p => if p = "downloads/ABC.mp4" then some 0 else none,
   fun _ => ⟨404, none, [], []⟩⟩

/-- Header lookup (by header name). -/
def lookupHdr : List (String × String) → String → Option String
  | [], _ => none
  | (k, v) :: rest, k2 => if k = k2 then some v else lookupHdr rest k2

/-- C9: the domain check of line 335 is a substring test and the shortcode
patterns are unanchored, so `https://notinstagram.com/p/ABC123` passes
validation, yields shortcode `ABC123`, and the strategy pipeline runs
(all three strategies are invoked in this failing world). -/
theorem substring_domain_bypass :
    strContains "instagram.com" "https://notinstagram.com/p/ABC123" = true
    ∧ extract_instagram_shortcode "https://notinstagram.com/p/ABC123" = some "ABC123"
    ∧ (download_handler
        (some (.vdict [("url", .vstr "https://notinstagram.com/p/ABC123")]))
        wFail).trace = [nameA, nameB, nameC]
    ∧ (download_handler
        (some (.vdict [("url", .vstr "https://notinstagram.com/p/ABC123")]))
        wFail).status = 400 := by
  refine ⟨rfl, rfl, rfl, rfl⟩

/-- C10: strategies (b) and (c) never read their original-URL argument:
their whole output (result, requests issued, files written) is the same for
any two original URLs, the `Referer` header and the page URL they use are
rebuilt from the shortcode alone, and the first request of each is the
shortcode-derived endpoint/page URL. -/
theorem strategies_independent_of_original_url :
    (∀ u1 u2 sc : String, ∀ w : World,
       download_with_requests u1 sc w = download_with_requests u2 sc w)
    ∧ (∀ u1 u2 sc : String, ∀ w : World,
       download_with_instaloader_like u1 sc w = download_with_instaloader_like u2 sc w)
    ∧ (∀ ua sc : String, lookupHdr (bHeaders ua sc) "Referer"
        = some ("https://www.instagram.com/p/" ++ sc ++ "/"))
    ∧ (∀ u sc : String, ∀ w : World,
       ((download_with_instaloader_like u sc w).requests.head?).map ReqEvent.url
         = some ("https://www.instagram.com/p/" ++ sc ++ "/"))
    ∧ (∀ u sc : String, ∀ w : World,
       ((download_with_requests u sc w).requests.head?).map ReqEvent.url
         = some ("https://www.instagram.com/p/" ++ sc ++ "/?__a=1&__d=dis")) := by
  refine ⟨fun u1 u2 sc w => rfl, fun u1 u2 sc w => rfl, fun ua sc => ?_,
    fun u sc w => ?_, fun u sc w => ?_⟩
  · simp [bHeaders, lookupHdr]
  · by_cases h : (w.reqGet ("https://www.instagram.com/p/" ++ sc ++ "/")).status = 200 <;>
      simp [download_with_instaloader_like, stratC_try, h]
  · by_cases h : (w.reqGet ("https://www.instagram.com/p/" ++ sc ++ "/?__a=1&__d=dis")).status = 200 <;>
      simp only [download_with_requests, stratB_try, apiUrls, runEndpoints, h,
        if_true, if_false, reduceIte] <;>
      [skip; rfl]
    split
    · rfl
    · split <;> rfl

/-- C3 counterexample: a success result of the direct-API strategy carries
no `thumbnail` key at all (its key set is only success, filepath, filename,
title, author, caption, method), so the three strategies do not share the
claimed common field set. -/
theorem direct_api_result_lacks_thumbnail :
    ((download_with_requests "https://x" "ABC" wB0).result.map pyKeys)
      = some ["success", "filepath", "filename", "title", "author", "caption", "method"]
    ∧ ((download_with_ytdlp_enhanced "u" "ABC" wA0).result.map pyKeys)
      = some ["success", "filepath", "filename", "title", "author", "caption",
              "thumbnail", "method"] := by
  refine ⟨rfl, rfl⟩

/-- A Bool view of whether an endpoint/block handler produced a success. -/
def isFound : Except PyErr EpInner → Bool
  | .ok (.found _ _ _) => true
  | _ => false

/-- C5 counterexample: in `wA0` the engine reports success and the output
file exists but is empty (size 0); strategy (a) checks only
`os.path.exists` (line 122), so it returns a success result whose file path
references an empty file, contradicting the claimed non-emptiness. -/
theorem ytdlp_success_with_empty_file :
    ((download_with_ytdlp_enhanced "u" "ABC" wA0).result.map
        (fun r => (pyLookup r "success").map pyTruthy)) = some (some true)
    ∧ ((download_with_ytdlp_enhanced "u" "ABC" wA0).result.map
        (fun r => (pyLookup r "filepath").map pyStr)) = some (some "downloads/ABC.mp4")
    ∧ wA0.fs "downloads/ABC.mp4" = some 0
    ∧ (download_with_ytdlp_enhanced "u" "ABC" wA0).writes = [] := by
  refine ⟨rfl, rfl, rfl, rfl⟩

/-- C8 counterexample: in `w8` the first endpoint returns status 200 with
the JSON object `{"items": 5}`, which matches neither the items-array shape
nor the graphql-wrapper shape; `len(data['items'])` raises `TypeError`,
which is not caught by the per-endpoint `except json.JSONDecodeError`, so
the strategy aborts: the second endpoint — whose payload would have
succeeded — is never requested, and the strategy returns no result. -/
theorem items_type_error_aborts_endpoints :
    (w8.reqGet "https://www.instagram.com/p/ABC/?__a=1&__d=dis").status = 200
    ∧ (stratB_try "ABC" w8).result = .error .typeError
    ∧ (download_with_requests "u" "ABC" w8).result = none
    ∧ (download_with_requests "u" "ABC" w8).requests.map ReqEvent.url
        = ["https://www.instagram.com/p/ABC/?__a=1&__d=dis"]
    ∧ isFound (epCore "ABC" (bHeaders w8.uaB "ABC") w8 goodGraphql) = true := by
  refine ⟨rfl, rfl, rfl, rfl, rfl⟩

/-! ## Lemmas about the extractor -/

/-- `toList` distributes over string append. -/
lemma toList_append (a b : String) : (a ++ b).toList = a.toList ++ b.toList := by
  cases a
  cases b
  rfl

/-- `String.mk` inverts `toList`. -/
lemma mk_toList (s : String) : String.mk s.toList = s := rfl

/-- A nonempty list is not `isEmpty`. -/
lemma isEmpty_false_of_ne {l : List Char} (h : l ≠ []) : l.isEmpty = false := by
  cases l with
  | nil => exact absurd rfl h
  | cons a t => rfl

/-- `stripPre` succeeds exactly on lists extending the literal. -/
lemma stripPre_self (a t : List Char) : stripPre a (a ++ t) = some t := by
  induction a with
  | nil => rfl
  | cons c a ih => simp [stripPre, ih]

/-- A successful `stripPre` exhibits the literal as a prefix. -/
lemma stripPre_eq_some (a : List Char) : ∀ b r, stripPre a b = some r → b = a ++ r := by
  induction a with
  | nil =>
    intro b r h
    simp [stripPre] at h
    simp [h]
  | cons c a ih =>
    intro b r h
    cases b with
    | nil => simp [stripPre] at h
    | cons d b =>
      by_cases hc : c = d
      · subst hc
        simp [stripPre] at h
        have := ih b r h
        simp [this]
      · simp [stripPre, hc] at h

/-- The literal cannot start at a position whose head is not `i`. -/
lemma stripPre_lit_ne (c : Char) (t : List Char) (h : ¬ c = 'i') :
    stripPre litList (c :: t) = none := by
  have h2 : ¬ ('i' : Char) = c := fun he => h he.symm
  simp [litList, stripPre, h2]

/-- Pattern 1 fails at any position whose head is not `i`. -/
lemma p1At_ne (c : Char) (t : List Char) (h : ¬ c = 'i') : p1At (c :: t) = none := by
  simp [p1At, stripPre_lit_ne c t h]

/-- Pattern 2 fails at any position whose head is not `i`. -/
lemma p2At_ne (c : Char) (t : List Char) (h : ¬ c = 'i') : p2At (c :: t) = none := by
  simp [p2At, stripPre_lit_ne c t h]

/-- One scan step over a failing position. -/
lemma searchAux_step (pAt : List Char → Option (List Char)) (c : Char) (t : List Char)
    (h : pAt (c :: t) = none) : searchAux pAt (c :: t) = searchAux pAt t := by
  simp [searchAux, h]

/-- The scan stops at the first matching position. -/
lemma searchAux_found (pAt : List Char → Option (List Char)) (c : Char) (t r : List Char)
    (h : pAt (c :: t) = some r) : searchAux pAt (c :: t) = some r := by
  simp [searchAux, h]

/-- Char lists free of `i` (so the literal cannot start inside them). -/
def noI (l : List Char) : Bool := l.all (fun c => !(c == 'i'))

/-- Skip a whole `i`-free block during the scan. -/
lemma searchAux_skip (pAt : List Char → Option (List Char))
    (hp : ∀ c t, ¬ c = 'i' → pAt (c :: t) = none)
    (l : List Char) (hl : noI l = true) (t : List Char) :
    searchAux pAt (l ++ t) = searchAux pAt t := by
  induction l with
  | nil => rfl
  | cons c l ih =>
    simp only [noI, List.all_cons, Bool.and_eq_true, Bool.not_eq_true', beq_eq_false_iff_ne,
      ne_eq] at hl
    rw [List.cons_append, searchAux_step pAt c (l ++ t) (hp c _ hl.1)]
    exact ih (by simpa [noI, Bool.not_eq_true', beq_eq_false_iff_ne] using hl.2)

/-- Char lists made of `[\w-]` characters and slashes; the literal contains
a dot, so it cannot start inside such a list. -/
def benign (l : List Char) : Bool := l.all (fun c => isWordDash c || c == '/')

/-- The literal never matches inside a benign list. -/
lemma stripPre_lit_benign (s : List Char) (h : benign s = true) :
    stripPre litList s = none := by
  cases hs : stripPre litList s with
  | none => rfl
  | some r =>
    exfalso
    have hsr : s = litList ++ r := stripPre_eq_some litList s r hs
    subst hsr
    have hdot : ('.' : Char) ∈ litList ++ r := by simp [litList]
    have hall := List.all_eq_true.mp h '.' hdot
    simp [isWordDash, isWordChar] at hall

/-- Pattern 1 fails everywhere inside benign text. -/
lemma p1At_benign (s : List Char) (h : benign s = true) : p1At s = none := by
  simp [p1At, stripPre_lit_benign s h]

/-- Pattern 2 fails everywhere inside benign text. -/
lemma p2At_benign (s : List Char) (h : benign s = true) : p2At s = none := by
  simp [p2At, stripPre_lit_benign s h]

/-- Scanning an entirely benign suffix finds nothing. -/
lemma searchAux_benign (pAt : List Char → Option (List Char))
    (hp : ∀ s, benign s = true → pAt s = none) :
    ∀ s, benign s = true → searchAux pAt s = none := by
  intro s
  induction s with
  | nil => intro h; rfl
  | cons c t ih =>
    intro h
    rw [searchAux_step pAt c t (hp _ h)]
    refine ih ?_
    simp only [benign, List.all_cons, Bool.and_eq_true] at h
    exact h.2

/-- An identifier made of `[\w-]` chars followed by a slash is benign. -/
lemma benign_id (id : List Char) (h : id.all isWordDash = true) :
    benign (id ++ ['/']) = true := by
  apply List.all_eq_true.mpr
  intro c hc
  rcases List.mem_append.mp hc with hm | hm
  · simp [List.all_eq_true.mp h c hm]
  · simp only [List.mem_singleton] at hm
    subst hm
    decide

/-- `takeWhile` stops exactly at the first failing char after a passing run. -/
lemma takeWhile_append_stop (p : Char → Bool) (l : List Char) (c : Char) (r : List Char)
    (hl : l.all p = true) (hc : p c = false) :
    (l ++ c :: r).takeWhile p = l := by
  induction l with
  | nil => simp [List.takeWhile_cons, hc]
  | cons a l ih =>
    simp only [List.all_cons, Bool.and_eq_true] at hl
    simp [List.takeWhile_cons, hl.1, ih hl.2]

/-- `dropWhile` drops exactly the passing run. -/
lemma dropWhile_append_stop (p : Char → Bool) (l : List Char) (c : Char) (r : List Char)
    (hl : l.all p = true) (hc : p c = false) :
    (l ++ c :: r).dropWhile p = c :: r := by
  induction l with
  | nil => simp [List.dropWhile_cons, hc]
  | cons a l ih =>
    simp only [List.all_cons, Bool.and_eq_true] at hl
    simp [List.dropWhile_cons, hl.1, ih hl.2]

/-- The greedy capture takes exactly the identifier. -/
lemma cap_run (id r : List Char) (h2 : id.all isWordDash = true) :
    (id ++ '/' :: r).takeWhile isWordDash = id :=
  takeWhile_append_stop _ _ _ _ h2 (by decide)

/-- Alternation result `p/<id>/...` for pattern 1. -/
lemma mkc1_p (id r : List Char) (h1 : id ≠ []) (h2 : id.all isWordDash = true) :
    matchKeywordCapture kws1 ('p' :: '/' :: (id ++ '/' :: r)) = some id := by
  simp [kws1, matchKeywordCapture, stripPre, cap_run id r h2, isEmpty_false_of_ne h1]

/-- Alternation result `reel/<id>/...` for pattern 1. -/
lemma mkc1_reel (id r : List Char) (h1 : id ≠ []) (h2 : id.all isWordDash = true) :
    matchKeywordCapture kws1
      ('r' :: 'e' :: 'e' :: 'l' :: '/' :: (id ++ '/' :: r)) = some id := by
  simp [kws1, matchKeywordCapture, stripPre, cap_run id r h2, isEmpty_false_of_ne h1]

/-- Alternation result `tv/<id>/...` for pattern 1. -/
lemma mkc1_tv (id r : List Char) (h1 : id ≠ []) (h2 : id.all isWordDash = true) :
    matchKeywordCapture kws1 ('t' :: 'v' :: '/' :: (id ++ '/' :: r)) = some id := by
  simp [kws1, matchKeywordCapture, stripPre, cap_run id r h2, isEmpty_false_of_ne h1]

/-- Alternation result `reels/<id>/...` for pattern 1: the `reel` alternative
fails on the following `s` and backtracking reaches the `reels` alternative. -/
lemma mkc1_reels (id r : List Char) (h1 : id ≠ []) (h2 : id.all isWordDash = true) :
    matchKeywordCapture kws1
      ('r' :: 'e' :: 'e' :: 'l' :: 's' :: '/' :: (id ++ '/' :: r)) = some id := by
  simp [kws1, matchKeywordCapture, stripPre, cap_run id r h2, isEmpty_false_of_ne h1]

/-- Pattern 1's alternation fails at a position starting with `s`. -/
lemma mkc1_other (t : List Char) : matchKeywordCapture kws1 ('s' :: t) = none := by
  simp [kws1, matchKeywordCapture, stripPre]

/-- Alternation result `p/<id>/...` for pattern 2. -/
lemma mkc2_p (id r : List Char) (h1 : id ≠ []) (h2 : id.all isWordDash = true) :
    matchKeywordCapture kws2 ('p' :: '/' :: (id ++ '/' :: r)) = some id := by
  simp [kws2, matchKeywordCapture, stripPre, cap_run id r h2, isEmpty_false_of_ne h1]

/-- Alternation result `reel/<id>/...` for pattern 2. -/
lemma mkc2_reel (id r : List Char) (h1 : id ≠ []) (h2 : id.all isWordDash = true) :
    matchKeywordCapture kws2
      ('r' :: 'e' :: 'e' :: 'l' :: '/' :: (id ++ '/' :: r)) = some id := by
  simp [kws2, matchKeywordCapture, stripPre, cap_run id r h2, isEmpty_false_of_ne h1]

/-- Pattern 2's alternation (`p|reel` only) fails on `tv/...`. -/
lemma mkc2_tv (t : List Char) : matchKeywordCapture kws2 ('t' :: t) = none := by
  simp [kws2, matchKeywordCapture, stripPre]

/-- Pattern 2's alternation (`p|reel` only) fails on `reels/...`. -/
lemma mkc2_reels (t : List Char) :
    matchKeywordCapture kws2 ('r' :: 'e' :: 'e' :: 'l' :: 's' :: t) = none := by
  simp [kws2, matchKeywordCapture, stripPre]

/-- The tail of the literal (for stepping the scan past its position). -/
def litTail : List Char := ['n','s','t','a','g','r','a','m','.','c','o','m','/']

/-- Pattern 1 at a position where the literal matches. -/
lemma p1At_lit (rest : List Char) :
    p1At (litList ++ rest) = matchKeywordCapture kws1 rest := by
  simp [p1At, stripPre_self]

/-- Pattern 2 at a position where the literal matches. -/
lemma p2At_lit (rest : List Char) :
    p2At (litList ++ rest)
      = (if (rest.takeWhile isWordDot).isEmpty then none
         else
           match rest.dropWhile isWordDot with
           | '/' :: r2 => matchKeywordCapture kws2 r2
           | _ => none) := by
  simp [p2At, stripPre_self]

/-- Step the scan past the literal's own position when the pattern fails
there. -/
lemma searchAux_lit_step (pAt : List Char → Option (List Char)) (rest : List Char)
    (h : pAt (litList ++ rest) = none) :
    searchAux pAt (litList ++ rest) = searchAux pAt (litTail ++ rest) := by
  have he : litList ++ rest = 'i' :: (litTail ++ rest) := rfl
  rw [he] at h ⊢
  exact searchAux_step pAt 'i' (litTail ++ rest) h

/-- Scan result for `https://instagram.com/<kw>/<id>/` when pattern 1's
alternation succeeds right after the literal. -/
lemma scan1_direct (mid id : List Char)
    (hmk : matchKeywordCapture kws1 (mid ++ (id ++ ['/'])) = some id) :
    searchAux p1At ("https://".toList ++ (litList ++ (mid ++ (id ++ ['/']))))
      = some id := by
  rw [searchAux_skip p1At p1At_ne "https://".toList (by decide)]
  have he : litList ++ (mid ++ (id ++ ['/']))
      = 'i' :: (litTail ++ (mid ++ (id ++ ['/']))) := rfl
  rw [he]
  apply searchAux_found
  rw [← he, p1At_lit]
  exact hmk

/-- Scan failure of pattern 1 over
`https://instagram.com/someuser/<kw>/<id>/`: the alternation fails at the
literal's position (next char is `s`), no other literal occurrence exists in
the `i`-free middle part, and the identifier region is benign. -/
lemma scan1_user_none (seg id : List Char) (hseg : noI seg = true)
    (h2 : id.all isWordDash = true) :
    searchAux p1At
      ("https://".toList ++ (litList ++ ('s' :: (seg ++ (id ++ ['/']))))) = none := by
  rw [searchAux_skip p1At p1At_ne "https://".toList (by decide)]
  rw [searchAux_lit_step p1At _ (by rw [p1At_lit]; exact mkc1_other _)]
  have he : litTail ++ ('s' :: (seg ++ (id ++ ['/'])))
      = (litTail ++ ('s' :: seg)) ++ (id ++ ['/']) := by
    simp [List.append_assoc]
  rw [he, searchAux_skip p1At p1At_ne _ ?hno]
  case hno =>
    have hlit : noI litTail = true := by decide
    have hs : (!('s' == 'i')) = true := by decide
    simp only [noI, List.all_append, List.all_cons, Bool.and_eq_true]
    exact ⟨hlit, hs, hseg⟩
  exact searchAux_benign p1At p1At_benign _ (benign_id id h2)

/-- Scan result of pattern 2 over
`https://instagram.com/someuser/<kwseg><id>/` at the literal's position:
the username run is consumed by `[\w.]+`, then the alternation decides. -/
lemma p2At_user (kwseg id : List Char) :
    p2At (litList ++ ("someuser/".toList ++ (kwseg ++ (id ++ ['/']))))
      = matchKeywordCapture kws2 (kwseg ++ (id ++ ['/'])) := by
  rw [p2At_lit]
  have hrun : "someuser/".toList ++ (kwseg ++ (id ++ ['/']))
      = "someuser".toList ++ '/' :: (kwseg ++ (id ++ ['/'])) := rfl
  rw [hrun, takeWhile_append_stop _ _ _ _ (by decide) (by decide),
    dropWhile_append_stop _ _ _ _ (by decide) (by decide)]
  rfl

/-- Scan success of pattern 2 over `https://instagram.com/someuser/...`
when the alternation succeeds at the literal's position. -/
lemma scan2_user_found (kwseg id res : List Char)
    (hmk : matchKeywordCapture kws2 (kwseg ++ (id ++ ['/'])) = some res) :
    searchAux p2At
      ("https://".toList ++ (litList ++ ("someuser/".toList ++ (kwseg ++ (id ++ ['/'])))))
        = some res := by
  rw [searchAux_skip p2At p2At_ne "https://".toList (by decide)]
  have he : litList ++ ("someuser/".toList ++ (kwseg ++ (id ++ ['/'])))
      = 'i' :: (litTail ++ ("someuser/".toList ++ (kwseg ++ (id ++ ['/'])))) := rfl
  rw [he]
  apply searchAux_found
  rw [← he, p2At_user]
  exact hmk

/-- Scan failure of pattern 2 over `https://instagram.com/someuser/...`
when the alternation fails at the literal's position and the rest of the
string offers no further literal occurrence. -/
lemma scan2_user_none (kwseg id : List Char) (hkw : noI kwseg = true)
    (hmk : matchKeywordCapture kws2 (kwseg ++ (id ++ ['/'])) = none)
    (h2 : id.all isWordDash = true) :
    searchAux p2At
      ("https://".toList ++ (litList ++ ("someuser/".toList ++ (kwseg ++ (id ++ ['/'])))))
        = none := by
  rw [searchAux_skip p2At p2At_ne "https://".toList (by decide)]
  rw [searchAux_lit_step p2At _ (by rw [p2At_user]; exact hmk)]
  have he : litTail ++ ("someuser/".toList ++ (kwseg ++ (id ++ ['/'])))
      = ((litTail ++ "someuser/".toList) ++ kwseg) ++ (id ++ ['/']) := by
    simp [List.append_assoc]
  rw [he, searchAux_skip p2At p2At_ne _ ?hno]
  case hno =>
    simp only [noI, List.all_append, Bool.and_eq_true]
    exact ⟨⟨by decide, by decide⟩, hkw⟩
  exact searchAux_benign p2At p2At_benign _ (benign_id id h2)

/-- Scan failure of pattern 1 over `https://instagram.com/someuser/` (a bare
profile URL; fully concrete). -/
lemma scan2_direct_after_p1 (mid id : List Char) (hnomid : noI mid = true)
    (hmk1 : matchKeywordCapture kws1 (mid ++ (id ++ ['/'])) = none)
    (h2 : id.all isWordDash = true) :
    searchAux p1At ("https://".toList ++ (litList ++ (mid ++ (id ++ ['/'])))) = none := by
  rw [searchAux_skip p1At p1At_ne "https://".toList (by decide)]
  rw [searchAux_lit_step p1At _ (by rw [p1At_lit]; exact hmk1)]
  have he : litTail ++ (mid ++ (id ++ ['/'])) = (litTail ++ mid) ++ (id ++ ['/']) := by
    simp [List.append_assoc]
  rw [he, searchAux_skip p1At p1At_ne _ ?hno]
  case hno =>
    have hlit : noI litTail = true := by decide
    simp only [noI, List.all_append, Bool.and_eq_true]
    exact ⟨hlit, hnomid⟩
  exact searchAux_benign p1At p1At_benign _ (benign_id id h2)

/-- C4 counterexample: `tv` and `reels` URLs with a leading username segment
yield no shortcode (the second pattern only recognizes `p|reel`), although
`tv` without a username does; so the claim that all four keywords work both
with and without a username is false. -/
theorem username_tv_url_yields_no_shortcode :
    extract_instagram_shortcode "https://www.instagram.com/someuser/tv/ABC123/" = none
    ∧ extract_instagram_shortcode "https://www.instagram.com/someuser/reels/XYZ789/" = none
    ∧ extract_instagram_shortcode "https://www.instagram.com/tv/ABC123/" = some "ABC123" := by
  refine ⟨rfl, rfl, rfl⟩

/-- C4 amended: for a nonempty identifier made of `[\w-]` characters, the
extractor returns the identifier for `p|reel|tv|reels` URLs without a
username segment and for `p|reel` URLs with a username segment; with a
username segment, `tv` and `reels` URLs yield no identifier, and a bare
profile URL yields no identifier. -/
theorem shortcode_extraction_amended (id : String)
    (h1 : id.toList ≠ []) (h2 : id.toList.all isWordDash = true) :
    extract_instagram_shortcode ("https://instagram.com/p/" ++ id ++ "/") = some id
    ∧ extract_instagram_shortcode ("https://instagram.com/reel/" ++ id ++ "/") = some id
    ∧ extract_instagram_shortcode ("https://instagram.com/tv/" ++ id ++ "/") = some id
    ∧ extract_instagram_shortcode ("https://instagram.com/reels/" ++ id ++ "/") = some id
    ∧ extract_instagram_shortcode ("https://instagram.com/someuser/p/" ++ id ++ "/") = some id
    ∧ extract_instagram_shortcode ("https://instagram.com/someuser/reel/" ++ id ++ "/") = some id
    ∧ extract_instagram_shortcode ("https://instagram.com/someuser/tv/" ++ id ++ "/") = none
    ∧ extract_instagram_shortcode ("https://instagram.com/someuser/reels/" ++ id ++ "/") = none
    ∧ extract_instagram_shortcode "https://instagram.com/someuser/" = none := by
  refine ⟨?_, ?_, ?_, ?_, ?_, ?_, ?_, ?_, rfl⟩
  · have hsplit : ("https://instagram.com/p/" ++ id ++ "/").toList
        = "https://".toList ++ (litList ++ ("p/".toList ++ (id.toList ++ ['/']))) := by
      rw [toList_append, toList_append]
      rfl
    unfold extract_instagram_shortcode
    rw [hsplit, scan1_direct _ _ (mkc1_p id.toList [] h1 h2)]
    show some (String.mk id.toList) = some id
    rw [mk_toList]
  · have hsplit : ("https://instagram.com/reel/" ++ id ++ "/").toList
        = "https://".toList ++ (litList ++ ("reel/".toList ++ (id.toList ++ ['/']))) := by
      rw [toList_append, toList_append]
      rfl
    unfold extract_instagram_shortcode
    rw [hsplit, scan1_direct _ _ (mkc1_reel id.toList [] h1 h2)]
    show some (String.mk id.toList) = some id
    rw [mk_toList]
  · have hsplit : ("https://instagram.com/tv/" ++ id ++ "/").toList
        = "https://".toList ++ (litList ++ ("tv/".toList ++ (id.toList ++ ['/']))) := by
      rw [toList_append, toList_append]
      rfl
    unfold extract_instagram_shortcode
    rw [hsplit, scan1_direct _ _ (mkc1_tv id.toList [] h1 h2)]
    show some (String.mk id.toList) = some id
    rw [mk_toList]
  · have hsplit : ("https://instagram.com/reels/" ++ id ++ "/").toList
        = "https://".toList ++ (litList ++ ("reels/".toList ++ (id.toList ++ ['/']))) := by
      rw [toList_append, toList_append]
      rfl
    unfold extract_instagram_shortcode
    rw [hsplit, scan1_direct _ _ (mkc1_reels id.toList [] h1 h2)]
    show some (String.mk id.toList) = some id
    rw [mk_toList]
  · have hsplit : ("https://instagram.com/someuser/p/" ++ id ++ "/").toList
        = "https://".toList ++ (litList ++ ('s' :: ("omeuser/p/".toList ++ (id.toList ++ ['/'])))) := by
      rw [toList_append, toList_append]
      rfl
    unfold extract_instagram_shortcode
    rw [hsplit, scan1_user_none "omeuser/p/".toList id.toList (by decide) h2]
    rw [show ('s' :: ("omeuser/p/".toList ++ (id.toList ++ ['/'])))
        = "someuser/".toList ++ ("p/".toList ++ (id.toList ++ ['/'])) from rfl]
    rw [scan2_user_found "p/".toList id.toList id.toList (mkc2_p id.toList [] h1 h2)]
    show some (String.mk id.toList) = some id
    rw [mk_toList]
  · have hsplit : ("https://instagram.com/someuser/reel/" ++ id ++ "/").toList
        = "https://".toList ++ (litList ++ ('s' :: ("omeuser/reel/".toList ++ (id.toList ++ ['/'])))) := by
      rw [toList_append, toList_append]
      rfl
    unfold extract_instagram_shortcode
    rw [hsplit, scan1_user_none "omeuser/reel/".toList id.toList (by decide) h2]
    rw [show ('s' :: ("omeuser/reel/".toList ++ (id.toList ++ ['/'])))
        = "someuser/".toList ++ ("reel/".toList ++ (id.toList ++ ['/'])) from rfl]
    rw [scan2_user_found "reel/".toList id.toList id.toList (mkc2_reel id.toList [] h1 h2)]
    show some (String.mk id.toList) = some id
    rw [mk_toList]
  · have hsplit : ("https://instagram.com/someuser/tv/" ++ id ++ "/").toList
        = "https://".toList ++ (litList ++ ('s' :: ("omeuser/tv/".toList ++ (id.toList ++ ['/'])))) := by
      rw [toList_append, toList_append]
      rfl
    unfold extract_instagram_shortcode
    rw [hsplit, scan1_user_none "omeuser/tv/".toList id.toList (by decide) h2]
    rw [show ('s' :: ("omeuser/tv/".toList ++ (id.toList ++ ['/'])))
        = "someuser/".toList ++ ("tv/".toList ++ (id.toList ++ ['/'])) from rfl]
    rw [scan2_user_none "tv/".toList id.toList (by decide) (mkc2_tv _) h2]
  · have hsplit : ("https://instagram.com/someuser/reels/" ++ id ++ "/").toList
        = "https://".toList ++ (litList ++ ('s' :: ("omeuser/reels/".toList ++ (id.toList ++ ['/'])))) := by
      rw [toList_append, toList_append]
      rfl
    unfold extract_instagram_shortcode
    rw [hsplit, scan1_user_none "omeuser/reels/".toList id.toList (by decide) h2]
    rw [show ('s' :: ("omeuser/reels/".toList ++ (id.toList ++ ['/'])))
        = "someuser/".toList ++ ("reels/".toList ++ (id.toList ++ ['/'])) from rfl]
    rw [scan2_user_none "reels/".toList id.toList (by decide) (mkc2_reels _) h2]

/-- Witness for the amended extraction theorem at `id = "ABC-1_x"`. -/
theorem shortcode_extraction_amended_witness :
    "ABC-1_x".toList ≠ [] ∧ "ABC-1_x".toList.all isWordDash = true
    ∧ (extract_instagram_shortcode ("https://instagram.com/p/" ++ "ABC-1_x" ++ "/") = some "ABC-1_x"
    ∧ extract_instagram_shortcode ("https://instagram.com/reel/" ++ "ABC-1_x" ++ "/") = some "ABC-1_x"
    ∧ extract_instagram_shortcode ("https://instagram.com/tv/" ++ "ABC-1_x" ++ "/") = some "ABC-1_x"
    ∧ extract_instagram_shortcode ("https://instagram.com/reels/" ++ "ABC-1_x" ++ "/") = some "ABC-1_x"
    ∧ extract_instagram_shortcode ("https://instagram.com/someuser/p/" ++ "ABC-1_x" ++ "/") = some "ABC-1_x"
    ∧ extract_instagram_shortcode ("https://instagram.com/someuser/reel/" ++ "ABC-1_x" ++ "/") = some "ABC-1_x"
    ∧ extract_instagram_shortcode ("https://instagram.com/someuser/tv/" ++ "ABC-1_x" ++ "/") = none
    ∧ extract_instagram_shortcode ("https://instagram.com/someuser/reels/" ++ "ABC-1_x" ++ "/") = none
    ∧ extract_instagram_shortcode "https://instagram.com/someuser/" = none) :=
  ⟨by decide, by decide, shortcode_extraction_amended "ABC-1_x" (by decide) (by decide)⟩

/-! ## Orchestrator lemmas -/

/-- A URL that passes the substring domain check is nonempty, hence truthy. -/
lemma strContains_truthy (u : String) (h : strContains "instagram.com" u = true) :
    pyTruthy (.vstr u) = true := by
  by_cases he : u = ""
  · subst he
    exact absurd h (by decide)
  · simp [pyTruthy, he]

/-- Once validation passes, the handler is the strategy pipeline. -/
lemma download_handler_valid (u sc : String) (w : World)
    (hdom : strContains "instagram.com" u = true)
    (hsc : extract_instagram_shortcode u = some sc) :
    download_handler (some (.vdict [("url", .vstr u)])) w = handlerCore u sc w := by
  have ht := strContains_truthy u hdom
  simp [download_handler, pyGet, dictLookup, ht, pyContains, hdom, hsc]

/-- The invoked-method trace is always an in-order prefix of the method
list's names. -/
lemma runMethods_trace_isPrefix :
    ∀ (l : List (String × MOutcome)) (acc : Option PyVal),
      ((runMethods l acc).2).isPrefixOf (l.map Prod.fst) = true := by
  intro l
  induction l with
  | nil => intro acc; rfl
  | cons p rest ih =>
    intro acc
    obtain ⟨nm, m⟩ := p
    cases m with
    | exc e =>
      simp only [runMethods, List.map_cons, List.isPrefixOf, beq_self_eq_true,
        Bool.true_and]
      exact ih acc
    | ok v =>
      cases hrc : resultCheck v with
      | error e =>
        simp only [runMethods, hrc, List.map_cons, List.isPrefixOf, beq_self_eq_true,
          Bool.true_and]
        exact ih v
      | ok b =>
        cases b with
        | false =>
          simp only [runMethods, hrc, List.map_cons, List.isPrefixOf, beq_self_eq_true,
            Bool.true_and]
          exact ih v
        | true => simp [runMethods, hrc, List.isPrefixOf]

/-- The handler's trace is the method loop's trace. -/
lemma handlerCore_trace (u sc : String) (w : World) :
    (handlerCore u sc w).trace
      = (runMethods [(nameA, .ok (download_with_ytdlp_enhanced u sc w).result),
          (nameB, .ok (download_with_requests u sc w).result),
          (nameC, .ok (download_with_instaloader_like u sc w).result)] none).2 := by
  simp only [handlerCore]
  split
  · rfl
  · split
    · rfl
    · rfl
    · split
      · rfl
      · rfl

/-- C1: for every request whose URL passes validation and yields a
shortcode, the handler invokes the strategies in the fixed order
(a) enhanced yt-dlp, (b) direct API, (c) HTML scraping — the invoked trace
is always an in-order prefix of that list — and it stops at the first
strategy whose result passes the success check; in particular, when
strategy (a) succeeds, strategies (b) and (c) are never invoked. -/
theorem orchestrator_order_and_short_circuit (u sc : String) (w : World)
    (hdom : strContains "instagram.com" u = true)
    (hsc : extract_instagram_shortcode u = some sc) :
    ((download_handler (some (.vdict [("url", .vstr u)])) w).trace).isPrefixOf
        [nameA, nameB, nameC] = true
    ∧ (resultCheck (download_with_ytdlp_enhanced u sc w).result = .ok true →
        (download_handler (some (.vdict [("url", .vstr u)])) w).trace = [nameA])
    ∧ (resultCheck (download_with_ytdlp_enhanced u sc w).result = .ok false →
        resultCheck (download_with_requests u sc w).result = .ok true →
        (download_handler (some (.vdict [("url", .vstr u)])) w).trace = [nameA, nameB])
    ∧ (resultCheck (download_with_ytdlp_enhanced u sc w).result = .ok false →
        resultCheck (download_with_requests u sc w).result = .ok false →
        (download_handler (some (.vdict [("url", .vstr u)])) w).trace
          = [nameA, nameB, nameC]) := by
  rw [download_handler_valid u sc w hdom hsc, handlerCore_trace]
  refine ⟨runMethods_trace_isPrefix _ none, ?_, ?_, ?_⟩
  · intro hA
    simp [runMethods, hA]
  · intro hA hB
    simp [runMethods, hA, hB]
  · intro hA hB
    cases hC : resultCheck (download_with_instaloader_like u sc w).result with
    | error e => simp [runMethods, hA, hB, hC]
    | ok b => cases b <;> simp [runMethods, hA, hB, hC]

/-- Witness for the orchestrator ordering theorem: in `wA0` strategy (a)
succeeds and only it is invoked; in `wFail` the trace is a prefix of the
full method list. -/
theorem orchestrator_order_and_short_circuit_witness :
    strContains "instagram.com" "https://www.instagram.com/p/ABC/" = true
    ∧ extract_instagram_shortcode "https://www.instagram.com/p/ABC/" = some "ABC"
    ∧ resultCheck (download_with_ytdlp_enhanced
        "https://www.instagram.com/p/ABC/" "ABC" wA0).result = .ok true
    ∧ (download_handler
        (some (.vdict [("url", .vstr "https://www.instagram.com/p/ABC/")])) wA0).trace
        = [nameA]
    ∧ ((download_handler
        (some (.vdict [("url", .vstr "https://www.instagram.com/p/ABC/")])) wFail).trace).isPrefixOf
        [nameA, nameB, nameC] = true :=
  ⟨by decide, by decide, rfl,
    (orchestrator_order_and_short_circuit "https://www.instagram.com/p/ABC/" "ABC" wA0
      (by decide) (by decide)).2.1 rfl,
    (orchestrator_order_and_short_circuit "https://www.instagram.com/p/ABC/" "ABC" wFail
      (by decide) (by decide)).1⟩

/-- Outcomes a real strategy can produce: a raised exception, a clean
`None`, or a result passing the success check. -/
def wfOutcome : MOutcome → Bool
  | .exc _ => true
  | .ok none => true
  | .ok (some v) =>
    match resultCheck (some v) with
    | .ok true => true
    | _ => false

/-- C2: each strategy's `except` clauses turn any error escaping its body
into a `None` return, and the orchestrator's per-invocation wrapper makes a
raised exception behave exactly like a `None` return: with strategy-shaped
outcomes, replacing an exception by `None` at any of the three positions
leaves the loop's result and the continuation unchanged, so no strategy
exception ever escapes and the pipeline always moves on to the next
strategy. -/
theorem strategy_failures_absorbed :
    (∀ u sc : String, ∀ w : World, ∀ e : PyErr,
       stratA_try sc w = .error e → (download_with_ytdlp_enhanced u sc w).result = none)
    ∧ (∀ u sc : String, ∀ w : World, ∀ e : PyErr,
       (stratB_try sc w).result = .error e → (download_with_requests u sc w).result = none)
    ∧ (∀ u sc : String, ∀ w : World, ∀ e : PyErr,
       (stratC_try sc w).result = .error e →
         (download_with_instaloader_like u sc w).result = none)
    ∧ (∀ (ob oc : MOutcome) (e : PyErr),
       runMethods [(nameA, .exc e), (nameB, ob), (nameC, oc)] none
         = runMethods [(nameA, .ok none), (nameB, ob), (nameC, oc)] none)
    ∧ (∀ (oa oc : MOutcome) (e : PyErr), wfOutcome oa = true →
       runMethods [(nameA, oa), (nameB, .exc e), (nameC, oc)] none
         = runMethods [(nameA, oa), (nameB, .ok none), (nameC, oc)] none)
    ∧ (∀ (oa ob : MOutcome) (e : PyErr), wfOutcome oa = true → wfOutcome ob = true →
       runMethods [(nameA, oa), (nameB, ob), (nameC, .exc e)] none
         = runMethods [(nameA, oa), (nameB, ob), (nameC, .ok none)] none) := by
  refine ⟨?_, ?_, ?_, ?_, ?_, ?_⟩
  · intro u sc w e h
    simp [download_with_ytdlp_enhanced, h]
  · intro u sc w e h
    simp [download_with_requests, h]
  · intro u sc w e h
    simp [download_with_instaloader_like, h]
  · intro ob oc e
    rfl
  · intro oa oc e hwf
    cases oa with
    | exc e2 => rfl
    | ok v =>
      cases v with
      | none => rfl
      | some pv =>
        cases hrc : resultCheck (some pv) with
        | error e3 => simp [wfOutcome, hrc] at hwf
        | ok b =>
          cases b with
          | false => simp [wfOutcome, hrc] at hwf
          | true => simp [runMethods, hrc]
  · intro oa ob e hwfa hwfb
    cases oa with
    | exc e2 =>
      cases ob with
      | exc e3 => rfl
      | ok v =>
        cases v with
        | none => rfl
        | some pv =>
          cases hrc : resultCheck (some pv) with
          | error e3 => simp [wfOutcome, hrc] at hwfb
          | ok b =>
            cases b with
            | false => simp [wfOutcome, hrc] at hwfb
            | true => simp [runMethods, hrc]
    | ok v =>
      cases v with
      | none =>
        cases ob with
        | exc e3 => rfl
        | ok v2 =>
          cases v2 with
          | none => rfl
          | some pv =>
            cases hrc : resultCheck (some pv) with
            | error e3 => simp [wfOutcome, hrc] at hwfb
            | ok b =>
              cases b with
              | false => simp [wfOutcome, hrc] at hwfb
              | true => simp [runMethods, hrc]
      | some pv =>
        cases hrc : resultCheck (some pv) with
        | error e3 => simp [wfOutcome, hrc] at hwfa
        | ok b =>
          cases b with
          | false => simp [wfOutcome, hrc] at hwfa
          | true => simp [runMethods, hrc]

/-- Witness for the exception-absorption theorem: in `w8` strategy (b)'s
body raises a `TypeError`, the strategy returns `None`, and an exception at
position (b) behaves like a `None` with a succeeding (a) outcome. -/
theorem strategy_failures_absorbed_witness :
    (stratB_try "ABC" w8).result = .error .typeError
    ∧ (download_with_requests "u" "ABC" w8).result = none
    ∧ wfOutcome (.ok none) = true
    ∧ runMethods [(nameA, .ok none), (nameB, .exc .typeError), (nameC, .ok none)] none
        = runMethods [(nameA, .ok none), (nameB, .ok none), (nameC, .ok none)] none :=
  ⟨rfl, strategy_failures_absorbed.2.1 "u" "ABC" w8 .typeError rfl, rfl,
    strategy_failures_absorbed.2.2.2.2.1 (.ok none) (.ok none) .typeError rfl⟩

/-- C6: when all three strategies return no result, the handler returns the
single generic failure shape — status 400, an `error` message citing likely
causes and a multi-line `suggestion` string, no strategy tag and no success
flag — and each strategy was invoked exactly once (no retries). -/
theorem exhaustion_generic_failure (u sc : String) (w : World)
    (hdom : strContains "instagram.com" u = true)
    (hsc : extract_instagram_shortcode u = some sc)
    (ha : (download_with_ytdlp_enhanced u sc w).result = none)
    (hb : (download_with_requests u sc w).result = none)
    (hc : (download_with_instaloader_like u sc w).result = none) :
    download_handler (some (.vdict [("url", .vstr u)])) w
      = ⟨400, .vdict [("error", .vstr exhaustionError),
          ("suggestion", .vstr exhaustionSuggestion)], [nameA, nameB, nameC]⟩
    ∧ pyLookup (.vdict [("error", .vstr exhaustionError),
        ("suggestion", .vstr exhaustionSuggestion)]) "method" = none
    ∧ pyLookup (.vdict [("error", .vstr exhaustionError),
        ("suggestion", .vstr exhaustionSuggestion)]) "success" = none := by
  refine ⟨?_, rfl, rfl⟩
  rw [download_handler_valid u sc w hdom hsc]
  simp [handlerCore, ha, hb, hc, runMethods, resultCheck, exhaustionOut]

/-- Witness for the exhaustion theorem in the all-failing world `wFail`. -/
theorem exhaustion_generic_failure_witness :
    strContains "instagram.com" "https://www.instagram.com/p/ABC/" = true
    ∧ extract_instagram_shortcode "https://www.instagram.com/p/ABC/" = some "ABC"
    ∧ (download_with_ytdlp_enhanced "https://www.instagram.com/p/ABC/" "ABC" wFail).result = none
    ∧ (download_with_requests "https://www.instagram.com/p/ABC/" "ABC" wFail).result = none
    ∧ (download_with_instaloader_like "https://www.instagram.com/p/ABC/" "ABC" wFail).result = none
    ∧ download_handler
        (some (.vdict [("url", .vstr "https://www.instagram.com/p/ABC/")])) wFail
        = ⟨400, .vdict [("error", .vstr exhaustionError),
            ("suggestion", .vstr exhaustionSuggestion)], [nameA, nameB, nameC]⟩ :=
  ⟨by decide, by decide, rfl, rfl, rfl,
    (exhaustion_generic_failure "https://www.instagram.com/p/ABC/" "ABC" wFail
      (by decide) (by decide) rfl rfl rfl).1⟩

/-- C7: requests with a missing/empty URL, a URL whose text does not contain
`instagram.com`, or a URL yielding no shortcode are answered with a
400-status response carrying the specific error message, with an empty
invocation trace — no strategy runs. -/
theorem validation_fails_fast :
    (∀ w : World, ∀ d : List (String × PyVal), dictLookup d "url" = none →
       download_handler (some (.vdict d)) w
         = ⟨400, errContent "No URL provided", []⟩)
    ∧ (∀ w : World, download_handler (some (.vdict [("url", .vstr "")])) w
         = ⟨400, errContent "No URL provided", []⟩)
    ∧ (∀ w : World, ∀ u : String, u ≠ "" → strContains "instagram.com" u = false →
       download_handler (some (.vdict [("url", .vstr u)])) w
         = ⟨400, errContent "Invalid Instagram URL", []⟩)
    ∧ (∀ w : World, ∀ u : String, strContains "instagram.com" u = true →
       extract_instagram_shortcode u = none →
       download_handler (some (.vdict [("url", .vstr u)])) w
         = ⟨400, errContent "Could not extract video ID from URL", []⟩) := by
  refine ⟨?_, ?_, ?_, ?_⟩
  · intro w d h
    simp [download_handler, pyGet, h, pyTruthy]
  · intro w
    simp [download_handler, pyGet, dictLookup, pyTruthy]
  · intro w u hne hdom
    simp [download_handler, pyGet, dictLookup, pyTruthy, hne, pyContains, hdom]
  · intro w u hdom hsc
    have ht := strContains_truthy u hdom
    simp [download_handler, pyGet, dictLookup, ht, pyContains, hdom, hsc]

/-- Witness for the fail-fast validation theorem, one instance per branch. -/
theorem validation_fails_fast_witness :
    dictLookup ([] : List (String × PyVal)) "url" = none
    ∧ download_handler (some (.vdict [])) wFail
        = ⟨400, errContent "No URL provided", []⟩
    ∧ ("https://example.com/p/A" : String) ≠ ""
    ∧ strContains "instagram.com" "https://example.com/p/A" = false
    ∧ download_handler (some (.vdict [("url", .vstr "https://example.com/p/A")])) wFail
        = ⟨400, errContent "Invalid Instagram URL", []⟩
    ∧ strContains "instagram.com" "https://www.instagram.com/profile/" = true
    ∧ extract_instagram_shortcode "https://www.instagram.com/profile/" = none
    ∧ download_handler
        (some (.vdict [("url", .vstr "https://www.instagram.com/profile/")])) wFail
        = ⟨400, errContent "Could not extract video ID from URL", []⟩ :=
  ⟨rfl, validation_fails_fast.1 wFail [] rfl, by decide, by decide,
    validation_fails_fast.2.2.1 wFail "https://example.com/p/A" (by decide) (by decide),
    by decide, by decide,
    validation_fails_fast.2.2.2 wFail "https://www.instagram.com/profile/"
      (by decide) (by decide)⟩

/-! ## Structural lemmas about the strategies' success results -/

/-- Every success result of one endpoint iteration is `mkResultB` for some
author/caption, and its file write targets `<download_dir>/<shortcode>.mp4`. -/
lemma epCore_found_shape (sc : String) (hdrs : List (String × String)) (w : World)
    (data r : PyVal) (vreq : ReqEvent) (wr : String × Nat)
    (h : epCore sc hdrs w data = .ok (.found r vreq wr)) :
    (∃ a c, r = mkResultB sc a c) ∧ wr.1 = download_dir ++ "/" ++ sc ++ ".mp4" := by
  unfold epCore at h
  simp only [bind, Except.bind, pure, Except.pure] at h
  repeat' split at h
  all_goals simp_all
  all_goals
    obtain ⟨h1, h2, h3⟩ := h
    exact ⟨⟨_, _, h1.symm⟩, by rw [← h3]⟩

/-- Every success result of one ld+json block is `mkResultC` for some
title/author/caption, and its file write targets the same path. -/
lemma cCore_found_shape (sc : String) (hdrs : List (String × String)) (w : World)
    (data r : PyVal) (vreq : ReqEvent) (wr : String × Nat)
    (h : cCore sc hdrs w data = .ok (.found r vreq wr)) :
    (∃ t a c, r = mkResultC sc t a c) ∧ wr.1 = download_dir ++ "/" ++ sc ++ ".mp4" := by
  unfold cCore at h
  simp only [bind, Except.bind, pure, Except.pure] at h
  repeat' split at h
  all_goals simp_all
  all_goals
    obtain ⟨h1, h2, h3⟩ := h
    exact ⟨⟨_, _, _, h1.symm⟩, by rw [← h3]⟩

/-- Endpoint loop: a non-200 status moves to the next endpoint. -/
lemma runEndpoints_cons_not200 (sc : String) (hdrs : List (String × String)) (w : World)
    (u : String) (rest : List String) (hs : ¬ (w.reqGet u).status = 200) :
    runEndpoints sc hdrs w (u :: rest)
      = ⟨(runEndpoints sc hdrs w rest).result,
         ⟨u, hdrs⟩ :: (runEndpoints sc hdrs w rest).requests,
         (runEndpoints sc hdrs w rest).writes⟩ := by
  simp [runEndpoints, hs]

/-- Endpoint loop: a 200 body that fails to parse as JSON moves to the next
endpoint (`except json.JSONDecodeError: continue`). -/
lemma runEndpoints_cons_badjson (sc : String) (hdrs : List (String × String)) (w : World)
    (u : String) (rest : List String) (hs : (w.reqGet u).status = 200)
    (hb : (w.reqGet u).body = none) :
    runEndpoints sc hdrs w (u :: rest)
      = ⟨(runEndpoints sc hdrs w rest).result,
         ⟨u, hdrs⟩ :: (runEndpoints sc hdrs w rest).requests,
         (runEndpoints sc hdrs w rest).writes⟩ := by
  simp [runEndpoints, hs, hb]

/-- Endpoint loop: an exception inside the per-endpoint body escapes the
loop; the remaining endpoints are never requested. -/
lemma runEndpoints_cons_err (sc : String) (hdrs : List (String × String)) (w : World)
    (u : String) (rest : List String) (data : PyVal) (e : PyErr)
    (hs : (w.reqGet u).status = 200) (hb : (w.reqGet u).body = some data)
    (hec : epCore sc hdrs w data = .error e) :
    runEndpoints sc hdrs w (u :: rest) = ⟨.error e, [⟨u, hdrs⟩], []⟩ := by
  simp [runEndpoints, hs, hb, hec]

/-- Endpoint loop: a success returns immediately. -/
lemma runEndpoints_cons_found (sc : String) (hdrs : List (String × String)) (w : World)
    (u : String) (rest : List String) (data res : PyVal) (vreq : ReqEvent)
    (wr : String × Nat) (hs : (w.reqGet u).status = 200)
    (hb : (w.reqGet u).body = some data)
    (hec : epCore sc hdrs w data = .ok (.found res vreq wr)) :
    runEndpoints sc hdrs w (u :: rest) = ⟨.ok (some res), [⟨u, hdrs⟩, vreq], [wr]⟩ := by
  simp [runEndpoints, hs, hb, hec]

/-- Endpoint loop: a clean fall-through moves to the next endpoint. -/
lemma runEndpoints_cons_next (sc : String) (hdrs : List (String × String)) (w : World)
    (u : String) (rest : List String) (data : PyVal) (extra : List ReqEvent)
    (hs : (w.reqGet u).status = 200) (hb : (w.reqGet u).body = some data)
    (hec : epCore sc hdrs w data = .ok (.next extra)) :
    runEndpoints sc hdrs w (u :: rest)
      = ⟨(runEndpoints sc hdrs w rest).result,
         ⟨u, hdrs⟩ :: (extra ++ (runEndpoints sc hdrs w rest).requests),
         (runEndpoints sc hdrs w rest).writes⟩ := by
  simp [runEndpoints, hs, hb, hec]

/-- The endpoint loop's success value is an `mkResultB` and its only write
is the shortcode-named file. -/
lemma runEndpoints_found (sc : String) (hdrs : List (String × String)) (w : World) :
    ∀ (urls : List String) (r : PyVal),
      (runEndpoints sc hdrs w urls).result = .ok (some r) →
      (∃ a c, r = mkResultB sc a c)
      ∧ ∃ n, (runEndpoints sc hdrs w urls).writes
          = [(download_dir ++ "/" ++ sc ++ ".mp4", n)] := by
  intro urls
  induction urls with
  | nil =>
    intro r h
    simp [runEndpoints] at h
  | cons u rest ih =>
    intro r h
    by_cases hs : (w.reqGet u).status = 200
    · cases hb : (w.reqGet u).body with
      | none =>
        rw [runEndpoints_cons_badjson sc hdrs w u rest hs hb] at h ⊢
        exact ih r h
      | some data =>
        cases hec : epCore sc hdrs w data with
        | error e =>
          rw [runEndpoints_cons_err sc hdrs w u rest data e hs hb hec] at h
          simp at h
        | ok inner =>
          cases inner with
          | found res vreq wr =>
            rw [runEndpoints_cons_found sc hdrs w u rest data res vreq wr hs hb hec] at h ⊢
            simp only [Except.ok.injEq, Option.some.injEq] at h
            subst h
            obtain ⟨hshape, hw1⟩ := epCore_found_shape sc hdrs w data res vreq wr hec
            refine ⟨hshape, wr.2, ?_⟩
            show [wr] = [(download_dir ++ "/" ++ sc ++ ".mp4", wr.2)]
            rw [← hw1]
          | next extra =>
            rw [runEndpoints_cons_next sc hdrs w u rest data extra hs hb hec] at h ⊢
            exact ih r h
    · rw [runEndpoints_cons_not200 sc hdrs w u rest hs] at h ⊢
      exact ih r h

/-- Block scan: an exception inside the block body escapes the loop. -/
lemma scanBlocks_cons_err (sc : String) (hdrs : List (String × String)) (w : World)
    (data : PyVal) (rest : List (Option PyVal)) (e : PyErr)
    (hec : cCore sc hdrs w data = .error e) :
    scanBlocks sc hdrs w (some data :: rest) = ⟨.error e, [], []⟩ := by
  simp [scanBlocks, hec]

/-- Block scan: a success returns immediately. -/
lemma scanBlocks_cons_found (sc : String) (hdrs : List (String × String)) (w : World)
    (data res : PyVal) (rest : List (Option PyVal)) (vreq : ReqEvent) (wr : String × Nat)
    (hec : cCore sc hdrs w data = .ok (.found res vreq wr)) :
    scanBlocks sc hdrs w (some data :: rest) = ⟨.ok (some res), [vreq], [wr]⟩ := by
  simp [scanBlocks, hec]

/-- Block scan: a clean fall-through moves to the next block. -/
lemma scanBlocks_cons_next (sc : String) (hdrs : List (String × String)) (w : World)
    (data : PyVal) (rest : List (Option PyVal)) (extra : List ReqEvent)
    (hec : cCore sc hdrs w data = .ok (.next extra)) :
    scanBlocks sc hdrs w (some data :: rest)
      = ⟨(scanBlocks sc hdrs w rest).result,
         extra ++ (scanBlocks sc hdrs w rest).requests,
         (scanBlocks sc hdrs w rest).writes⟩ := by
  simp [scanBlocks, hec]

/-- The block-scan loop's success value is an `mkResultC` and its only
write is the shortcode-named file. -/
lemma scanBlocks_found (sc : String) (hdrs : List (String × String)) (w : World) :
    ∀ (blocks : List (Option PyVal)) (r : PyVal),
      (scanBlocks sc hdrs w blocks).result = .ok (some r) →
      (∃ t a c, r = mkResultC sc t a c)
      ∧ ∃ n, (scanBlocks sc hdrs w blocks).writes
          = [(download_dir ++ "/" ++ sc ++ ".mp4", n)] := by
  intro blocks
  induction blocks with
  | nil =>
    intro r h
    simp [scanBlocks] at h
  | cons b rest ih =>
    intro r h
    cases b with
    | none => exact ih r h
    | some data =>
      cases hec : cCore sc hdrs w data with
      | error e =>
        rw [scanBlocks_cons_err sc hdrs w data rest e hec] at h
        simp at h
      | ok inner =>
        cases inner with
        | found res vreq wr =>
          rw [scanBlocks_cons_found sc hdrs w data res rest vreq wr hec] at h ⊢
          simp only [Except.ok.injEq, Option.some.injEq] at h
          subst h
          obtain ⟨hshape, hw1⟩ := cCore_found_shape sc hdrs w data res vreq wr hec
          refine ⟨hshape, wr.2, ?_⟩
          show [wr] = [(download_dir ++ "/" ++ sc ++ ".mp4", wr.2)]
          rw [← hw1]
        | next extra =>
          rw [scanBlocks_cons_next sc hdrs w data rest extra hec] at h ⊢
          exact ih r h

/-- A strategy-(b) success comes from the loop's `try` body succeeding. -/
lemma stratB_result_eq (u sc : String) (w : World) (r : PyVal)
    (h : (download_with_requests u sc w).result = some r) :
    (stratB_try sc w).result = .ok (some r) := by
  unfold download_with_requests at h
  dsimp only [] at h
  cases he : (stratB_try sc w).result with
  | error e =>
    rw [he] at h
    simp at h
  | ok v =>
    rw [he] at h
    simp at h
    rw [h]

/-- A strategy-(c) success comes from the scan's `try` body succeeding. -/
lemma stratC_result_eq (u sc : String) (w : World) (r : PyVal)
    (h : (download_with_instaloader_like u sc w).result = some r) :
    (stratC_try sc w).result = .ok (some r) := by
  unfold download_with_instaloader_like at h
  dsimp only [] at h
  cases he : (stratC_try sc w).result with
  | error e =>
    rw [he] at h
    simp at h
  | ok v =>
    rw [he] at h
    simp at h
    rw [h]

/-- A strategy-(a) success comes from its `try` body succeeding. -/
lemma stratA_result_eq (u sc : String) (w : World) (r : PyVal)
    (h : (download_with_ytdlp_enhanced u sc w).result = some r) :
    stratA_try sc w = .ok (some r) := by
  unfold download_with_ytdlp_enhanced at h
  cases he : stratA_try sc w with
  | error e =>
    rw [he] at h
    simp at h
  | ok v =>
    rw [he] at h
    simp at h
    rw [h]

/-- Structure of a strategy-(a) success: the full eight-key result dict, a
file path that exists on the engine's file system, and the author/caption
defaults when the engine's info dict omits `uploader`/`description`. -/
lemma stratA_success (sc : String) (w : World) (r : PyVal)
    (h : stratA_try sc w = .ok (some r)) :
    pyKeys r = ["success", "filepath", "filename", "title", "author", "caption",
      "thumbnail", "method"]
    ∧ (∃ fp, pyLookup r "filepath" = some (.vstr fp) ∧ w.fs fp ≠ none)
    ∧ (∀ info, w.ydl = .ok (.vdict info) →
        (dictLookup info "uploader" = none → pyLookup r "author" = some (.vstr "Unknown"))
        ∧ (dictLookup info "description" = none →
           pyLookup r "caption" = some (.vstr "No caption available"))) := by
  unfold stratA_try at h
  simp only [bind, Except.bind, pure, Except.pure] at h
  repeat' split at h
  all_goals simp_all
  rename_i x6 info hydl x5 vid hvid x4 ext hext hfs x3 title htitle x2 author hauthor
    x1 caption hcap x0 thumb hthumb
  subst h
  refine ⟨rfl, ⟨download_dir ++ "/" ++ (pyStr vid ++ "." ++ pyStr ext), ?_, ?_⟩, ?_⟩
  · simp [pyLookup, dictLookup]
  · intro hne
    rw [hne] at hfs
    simp at hfs
  · intro info2 hydl2
    subst hydl2
    constructor
    · intro hupl
      simp [pyGet, hupl] at hauthor
      simp [pyLookup, dictLookup, ← hauthor]
    · intro hdesc
      simp [pyGet, hdesc] at hcap
      simp [pyLookup, dictLookup, ← hcap]

/-- The author lookup of line 207 yields the default when the media object
has no `owner` entry. -/
lemma authorOfB_default (d : List (String × PyVal)) (h : dictLookup d "owner" = none) :
    authorOfB (.vdict d) = .ok (.vstr "Unknown") := by
  simp [authorOfB, pyGet, h, bind, Except.bind, dictLookup]

/-- The caption extraction of lines 198-204 leaves the initial empty string
when the media object has neither caption shape. -/
lemma captionOf_default (d : List (String × PyVal))
    (h1 : dictLookup d "caption" = none) (h2 : dictLookup d "edge_media_to_caption" = none) :
    captionOf (.vdict d) = .ok (.vstr "") := by
  simp [captionOf, pyContains, h1, h2, bind, Except.bind, pure, Except.pure]

/-- `caption or 'No caption available'` (line 226) on a falsy caption. -/
lemma normCaption_default (c : PyVal) (h : pyTruthy c = false) :
    normCaption c = .vstr "No caption available" := by
  simp [normCaption, h]

/-- The fields of a strategy-(b) result dict. -/
lemma mkResultB_fields (sc : String) (a c : PyVal) :
    pyKeys (mkResultB sc a c)
      = ["success", "filepath", "filename", "title", "author", "caption", "method"]
    ∧ pyLookup (mkResultB sc a c) "author" = some a
    ∧ pyLookup (mkResultB sc a c) "caption" = some (normCaption c)
    ∧ pyLookup (mkResultB sc a c) "filepath"
        = some (.vstr (download_dir ++ "/" ++ sc ++ ".mp4")) := by
  refine ⟨rfl, ?_, ?_, ?_⟩ <;> simp [mkResultB, pyLookup, dictLookup]

/-- The fields of a strategy-(c) result dict. -/
lemma mkResultC_fields (sc : String) (t a c : PyVal) :
    pyKeys (mkResultC sc t a c)
      = ["success", "filepath", "filename", "title", "author", "caption", "method"]
    ∧ pyLookup (mkResultC sc t a c) "author" = some a
    ∧ pyLookup (mkResultC sc t a c) "caption" = some c
    ∧ pyLookup (mkResultC sc t a c) "filepath"
        = some (.vstr (download_dir ++ "/" ++ sc ++ ".mp4")) := by
  refine ⟨rfl, ?_, ?_, ?_⟩ <;> simp [mkResultC, pyLookup, dictLookup]

/-- Strategy (c) fills caption/author/title with the stated defaults when
the ld+json object omits the `caption` and `author` entries. -/
lemma cCore_defaults (sc : String) (hdrs : List (String × String)) (w : World)
    (ddata : List (String × PyVal)) (r : PyVal) (vreq : ReqEvent) (wr : String × Nat)
    (hcap : dictLookup ddata "caption" = none)
    (hauth : dictLookup ddata "author" = none)
    (h : cCore sc hdrs w (.vdict ddata) = .ok (.found r vreq wr)) :
    pyLookup r "caption" = some (.vstr "No caption available")
    ∧ pyLookup r "author" = some (.vstr "Unknown")
    ∧ pyLookup r "title" = some (.vstr "Instagram Video") := by
  unfold cCore at h
  simp only [bind, Except.bind, pure, Except.pure] at h
  repeat' split at h
  all_goals simp_all
  rename_i htitle hauthobj hname hcapv
  obtain ⟨h1, h2, h3⟩ := h
  subst h1
  simp only [pyGet, hcap, hauth, Option.getD_none, Except.ok.injEq] at htitle hauthobj hcapv
  subst htitle
  subst hauthobj
  subst hcapv
  simp only [pyGet, dictLookup, Option.getD_none, Except.ok.injEq] at hname
  subst hname
  simp [mkResultC, pyLookup, dictLookup]

/-- Unfolding of strategy (c)'s body when the page fetch returns 200. -/
lemma stratC_try_200 (sc : String) (w : World)
    (hs : (w.reqGet ("https://www.instagram.com/p/" ++ sc ++ "/")).status = 200) :
    stratC_try sc w
      = ⟨(scanBlocks sc (cHeaders w.uaC) w
            (w.reqGet ("https://www.instagram.com/p/" ++ sc ++ "/")).ldBlocks).result,
         ⟨"https://www.instagram.com/p/" ++ sc ++ "/", cHeaders w.uaC⟩ ::
           (scanBlocks sc (cHeaders w.uaC) w
            (w.reqGet ("https://www.instagram.com/p/" ++ sc ++ "/")).ldBlocks).requests,
         (scanBlocks sc (cHeaders w.uaC) w
            (w.reqGet ("https://www.instagram.com/p/" ++ sc ++ "/")).ldBlocks).writes⟩ := by
  simp [stratC_try, hs]

/-- Unfolding of strategy (c)'s body when the page fetch fails. -/
lemma stratC_try_not200 (sc : String) (w : World)
    (hs : ¬ (w.reqGet ("https://www.instagram.com/p/" ++ sc ++ "/")).status = 200) :
    stratC_try sc w
      = ⟨.ok none, [⟨"https://www.instagram.com/p/" ++ sc ++ "/", cHeaders w.uaC⟩], []⟩ := by
  simp [stratC_try, hs]

/-- A strategy-(c) success result is an `mkResultC` with the single
shortcode-named write. -/
lemma stratC_success (u sc : String) (w : World) (r : PyVal)
    (h : (download_with_instaloader_like u sc w).result = some r) :
    (∃ t a c, r = mkResultC sc t a c)
    ∧ ∃ n, (download_with_instaloader_like u sc w).writes
        = [(download_dir ++ "/" ++ sc ++ ".mp4", n)] := by
  have hc := stratC_result_eq u sc w r h
  by_cases hs : (w.reqGet ("https://www.instagram.com/p/" ++ sc ++ "/")).status = 200
  · rw [stratC_try_200 sc w hs] at hc
    obtain ⟨hshape, n, hw⟩ := scanBlocks_found sc (cHeaders w.uaC) w
      (w.reqGet ("https://www.instagram.com/p/" ++ sc ++ "/")).ldBlocks r hc
    refine ⟨hshape, n, ?_⟩
    have hweq : (download_with_instaloader_like u sc w).writes = (stratC_try sc w).writes := rfl
    rw [hweq, stratC_try_200 sc w hs]
    exact hw
  · rw [stratC_try_not200 sc w hs] at hc
    simp at hc

/-- The file just written by a strategy is present afterwards. -/
lemma applyWrites_single (fs : String → Option Nat) (p : String) (n : Nat) :
    applyWrites fs [(p, n)] p = some n := by
  simp [applyWrites]

/-- C3 amended: strategy (a)'s success results carry the eight keys
success/filepath/filename/title/author/caption/thumbnail/method, while
strategies (b) and (c) carry the same set minus `thumbnail`; in each
strategy the author defaults to `Unknown` and the caption to
`No caption available` when the source data omits them (for (b), via the
empty caption falling back in `caption or ...`). -/
theorem normalized_result_fields_amended :
    (∀ u sc : String, ∀ w : World, ∀ r : PyVal,
       (download_with_ytdlp_enhanced u sc w).result = some r →
       pyKeys r = ["success", "filepath", "filename", "title", "author", "caption",
         "thumbnail", "method"])
    ∧ (∀ u sc : String, ∀ w : World, ∀ r : PyVal,
       (download_with_requests u sc w).result = some r →
       pyKeys r = ["success", "filepath", "filename", "title", "author", "caption", "method"])
    ∧ (∀ u sc : String, ∀ w : World, ∀ r : PyVal,
       (download_with_instaloader_like u sc w).result = some r →
       pyKeys r = ["success", "filepath", "filename", "title", "author", "caption", "method"])
    ∧ (∀ u sc : String, ∀ w : World, ∀ r : PyVal, ∀ info : List (String × PyVal),
       w.ydl = .ok (.vdict info) →
       (download_with_ytdlp_enhanced u sc w).result = some r →
       (dictLookup info "uploader" = none → pyLookup r "author" = some (.vstr "Unknown"))
       ∧ (dictLookup info "description" = none →
          pyLookup r "caption" = some (.vstr "No caption available")))
    ∧ (∀ d : List (String × PyVal), dictLookup d "owner" = none →
       authorOfB (.vdict d) = .ok (.vstr "Unknown"))
    ∧ (∀ d : List (String × PyVal), dictLookup d "caption" = none →
       dictLookup d "edge_media_to_caption" = none → captionOf (.vdict d) = .ok (.vstr ""))
    ∧ (∀ c : PyVal, pyTruthy c = false → normCaption c = .vstr "No caption available")
    ∧ (∀ sc : String, ∀ a c : PyVal,
       pyLookup (mkResultB sc a c) "caption" = some (normCaption c)
       ∧ pyLookup (mkResultB sc a c) "author" = some a)
    ∧ (∀ sc : String, ∀ hdrs : List (String × String), ∀ w : World,
       ∀ ddata : List (String × PyVal), ∀ r : PyVal, ∀ vreq : ReqEvent,
       ∀ wr : String × Nat,
       dictLookup ddata "caption" = none → dictLookup ddata "author" = none →
       cCore sc hdrs w (.vdict ddata) = .ok (.found r vreq wr) →
       pyLookup r "caption" = some (.vstr "No caption available")
       ∧ pyLookup r "author" = some (.vstr "Unknown")) := by
  refine ⟨?_, ?_, ?_, ?_, ?_, ?_, ?_, ?_, ?_⟩
  · intro u sc w r h
    exact (stratA_success sc w r (stratA_result_eq u sc w r h)).1
  · intro u sc w r h
    obtain ⟨⟨a, c, hr⟩, _⟩ := runEndpoints_found sc (bHeaders w.uaB sc) w (apiUrls sc) r
      (stratB_result_eq u sc w r h)
    subst hr
    exact (mkResultB_fields sc a c).1
  · intro u sc w r h
    obtain ⟨⟨t, a, c, hr⟩, _⟩ := stratC_success u sc w r h
    subst hr
    exact (mkResultC_fields sc t a c).1
  · intro u sc w r info hydl h
    exact (stratA_success sc w r (stratA_result_eq u sc w r h)).2.2 info hydl
  · exact authorOfB_default
  · exact captionOf_default
  · exact normCaption_default
  · intro sc a c
    exact ⟨(mkResultB_fields sc a c).2.2.1, (mkResultB_fields sc a c).2.1⟩
  · intro sc hdrs w ddata r vreq wr h1 h2 h
    exact ⟨(cCore_defaults sc hdrs w ddata r vreq wr h1 h2 h).1,
      (cCore_defaults sc hdrs w ddata r vreq wr h1 h2 h).2.1⟩

/-- Witness for the amended normalization theorem: a concrete strategy-(b)
success in `wB0` with the seven-key shape and defaulted caption. -/
theorem normalized_result_fields_amended_witness :
    (download_with_requests "https://x" "ABC" wB0).result
        = some (mkResultB "ABC" (.vstr "alice") (.vstr ""))
    ∧ pyKeys (mkResultB "ABC" (.vstr "alice") (.vstr ""))
        = ["success", "filepath", "filename", "title", "author", "caption", "method"]
    ∧ pyLookup (mkResultB "ABC" (.vstr "alice") (.vstr "")) "caption"
        = some (.vstr "No caption available") :=
  ⟨rfl, normalized_result_fields_amended.2.1 "https://x" "ABC" wB0
      (mkResultB "ABC" (.vstr "alice") (.vstr "")) rfl, rfl⟩

/-- C5 amended: whenever a strategy returns a success result, the file path
in the result references a file that exists on the strategy's file system at
return time — strategy (a) checks existence explicitly, strategies (b) and
(c) have just created the file by writing the streamed chunks.  (The file
may nevertheless be empty: the code never checks the size, see the
counterexample.) -/
theorem success_file_exists_amended :
    (∀ u sc : String, ∀ w : World, ∀ r : PyVal,
       (download_with_ytdlp_enhanced u sc w).result = some r →
       ∃ fp, pyLookup r "filepath" = some (.vstr fp)
         ∧ applyWrites w.fs (download_with_ytdlp_enhanced u sc w).writes fp ≠ none)
    ∧ (∀ u sc : String, ∀ w : World, ∀ r : PyVal,
       (download_with_requests u sc w).result = some r →
       ∃ fp, pyLookup r "filepath" = some (.vstr fp)
         ∧ applyWrites w.fs (download_with_requests u sc w).writes fp ≠ none)
    ∧ (∀ u sc : String, ∀ w : World, ∀ r : PyVal,
       (download_with_instaloader_like u sc w).result = some r →
       ∃ fp, pyLookup r "filepath" = some (.vstr fp)
         ∧ applyWrites w.fs (download_with_instaloader_like u sc w).writes fp ≠ none) := by
  refine ⟨?_, ?_, ?_⟩
  · intro u sc w r h
    obtain ⟨_, ⟨fp, hfp, hne⟩, _⟩ := stratA_success sc w r (stratA_result_eq u sc w r h)
    have hw : (download_with_ytdlp_enhanced u sc w).writes = [] := by
      unfold download_with_ytdlp_enhanced
      cases stratA_try sc w <;> rfl
    rw [hw]
    exact ⟨fp, hfp, hne⟩
  · intro u sc w r h
    obtain ⟨⟨a, c, hr⟩, n, hwr⟩ := runEndpoints_found sc (bHeaders w.uaB sc) w (apiUrls sc) r
      (stratB_result_eq u sc w r h)
    subst hr
    refine ⟨download_dir ++ "/" ++ sc ++ ".mp4", (mkResultB_fields sc a c).2.2.2, ?_⟩
    have hw : (download_with_requests u sc w).writes
        = (runEndpoints sc (bHeaders w.uaB sc) w (apiUrls sc)).writes := rfl
    rw [hw, hwr, applyWrites_single]
    simp
  · intro u sc w r h
    obtain ⟨⟨t, a, c, hr⟩, n, hwr⟩ := stratC_success u sc w r h
    subst hr
    refine ⟨download_dir ++ "/" ++ sc ++ ".mp4", (mkResultC_fields sc t a c).2.2.2, ?_⟩
    rw [hwr, applyWrites_single]
    simp

/-- The concrete strategy-(a) success result in `wA0`. -/
def rA0 : PyVal :=
  .vdict [("success", .vbool true), ("filepath", .vstr "downloads/ABC.mp4"),
    ("filename", .vstr "ABC.mp4"), ("title", .vstr "Instagram Video"),
    ("author", .vstr "Unknown"), ("caption", .vstr "No caption available"),
    ("thumbnail", .vstr ""), ("method", .vstr "ytdlp_enhanced")]

/-- Witness for the amended file-existence theorem in `wA0`. -/
theorem success_file_exists_amended_witness :
    (download_with_ytdlp_enhanced "u" "ABC" wA0).result = some rA0
    ∧ ∃ fp, pyLookup rA0 "filepath" = some (.vstr fp)
      ∧ applyWrites wA0.fs (download_with_ytdlp_enhanced "u" "ABC" wA0).writes fp ≠ none :=
  ⟨rfl, success_file_exists_amended.1 "u" "ABC" wA0 rA0 rfl⟩

/-- A 200 JSON object with neither an `items` nor a `graphql` key falls
through cleanly (`else: continue`, line 187). -/
lemma epCore_neither (sc : String) (hdrs : List (String × String)) (w : World)
    (d : List (String × PyVal)) (h1 : dictLookup d "items" = none)
    (h2 : dictLookup d "graphql" = none) :
    epCore sc hdrs w (.vdict d) = .ok (.next []) := by
  simp [epCore, mediaOf, pyContains, pyGetItem, h1, h2, bind, Except.bind, pure, Except.pure]

/-- A resolved media dict with no playable video URL under either key shape
falls through cleanly (the `if video_url:` block is skipped). -/
lemma epCore_noVideo (sc : String) (hdrs : List (String × String)) (w : World)
    (m : List (String × PyVal)) (h1 : dictLookup m "video_url" = none)
    (h2 : dictLookup m "video_versions" = none) :
    epCore sc hdrs w (.vdict [("graphql", .vdict [("shortcode_media", .vdict m)])])
      = .ok (.next []) := by
  simp [epCore, mediaOf, videoUrlOf, pyContains, pyGetItem, dictLookup, h1, h2,
    bind, Except.bind, pure, Except.pure, pyTruthy]

/-- `{"items": <number>}` raises a `TypeError` at `len(data['items'])`. -/
lemma epCore_items_bad (sc : String) (hdrs : List (String × String)) (w : World)
    (n : Int) :
    epCore sc hdrs w (.vdict [("items", .vint n)]) = .error .typeError := by
  simp [epCore, mediaOf, pyContains, pyGetItem, pyLen, dictLookup,
    bind, Except.bind, pure, Except.pure]

/-- C8 amended: on a JSON-parse failure, a JSON object with neither
recognized key, or a resolved media object with no playable video URL, the
strategy proceeds to the next endpoint template; but a present `items`
value of a non-sized type (e.g. a number) raises a `TypeError` that escapes
the per-endpoint `except json.JSONDecodeError`, aborting the remaining
endpoints (the strategy as a whole still returns no result). -/
theorem endpoint_fallthrough_amended :
    (∀ sc : String, ∀ hdrs : List (String × String), ∀ w : World, ∀ u : String,
       ∀ rest : List String,
       (w.reqGet u).status = 200 → (w.reqGet u).body = none →
       (runEndpoints sc hdrs w (u :: rest)).result = (runEndpoints sc hdrs w rest).result)
    ∧ (∀ sc : String, ∀ hdrs : List (String × String), ∀ w : World, ∀ u : String,
       ∀ rest : List String, ∀ d : List (String × PyVal),
       (w.reqGet u).status = 200 → (w.reqGet u).body = some (.vdict d) →
       dictLookup d "items" = none → dictLookup d "graphql" = none →
       (runEndpoints sc hdrs w (u :: rest)).result = (runEndpoints sc hdrs w rest).result)
    ∧ (∀ sc : String, ∀ hdrs : List (String × String), ∀ w : World, ∀ u : String,
       ∀ rest : List String, ∀ m : List (String × PyVal),
       (w.reqGet u).status = 200 →
       (w.reqGet u).body = some (.vdict [("graphql", .vdict [("shortcode_media", .vdict m)])]) →
       dictLookup m "video_url" = none → dictLookup m "video_versions" = none →
       (runEndpoints sc hdrs w (u :: rest)).result = (runEndpoints sc hdrs w rest).result)
    ∧ (∀ sc : String, ∀ hdrs : List (String × String), ∀ w : World, ∀ n : Int,
       epCore sc hdrs w (.vdict [("items", .vint n)]) = .error .typeError)
    ∧ (∀ sc : String, ∀ hdrs : List (String × String), ∀ w : World, ∀ u : String,
       ∀ rest : List String, ∀ n : Int,
       (w.reqGet u).status = 200 → (w.reqGet u).body = some (.vdict [("items", .vint n)]) →
       runEndpoints sc hdrs w (u :: rest) = ⟨.error .typeError, [⟨u, hdrs⟩], []⟩) := by
  refine ⟨?_, ?_, ?_, epCore_items_bad, ?_⟩
  · intro sc hdrs w u rest hs hb
    rw [runEndpoints_cons_badjson sc hdrs w u rest hs hb]
  · intro sc hdrs w u rest d hs hb h1 h2
    rw [runEndpoints_cons_next sc hdrs w u rest _ [] hs hb (epCore_neither sc hdrs w d h1 h2)]
  · intro sc hdrs w u rest m hs hb h1 h2
    rw [runEndpoints_cons_next sc hdrs w u rest _ [] hs hb (epCore_noVideo sc hdrs w m h1 h2)]
  · intro sc hdrs w u rest n hs hb
    exact runEndpoints_cons_err sc hdrs w u rest _ .typeError hs hb
      (epCore_items_bad sc hdrs w n)

/-- Witness for the amended endpoint-fallthrough theorem: in `w8` the first
endpoint's 200 body is `{"items": 5}` and the loop aborts with the
`TypeError`, having requested only that endpoint. -/
theorem endpoint_fallthrough_amended_witness :
    (w8.reqGet "https://www.instagram.com/p/ABC/?__a=1&__d=dis").status = 200
    ∧ (w8.reqGet "https://www.instagram.com/p/ABC/?__a=1&__d=dis").body
        = some (.vdict [("items", .vint 5)])
    ∧ runEndpoints "ABC" (bHeaders w8.uaB "ABC") w8
        ("https://www.instagram.com/p/ABC/?__a=1&__d=dis"
          :: ["https://www.instagram.com/reel/ABC/?__a=1&__d=dis"])
        = ⟨.error .typeError,
           [⟨"https://www.instagram.com/p/ABC/?__a=1&__d=dis", bHeaders w8.uaB "ABC"⟩], []⟩ :=
  ⟨rfl, rfl,
    endpoint_fallthrough_amended.2.2.2.2 "ABC" (bHeaders w8.uaB "ABC") w8
      "https://www.instagram.com/p/ABC/?__a=1&__d=dis"
      ["https://www.instagram.com/reel/ABC/?__a=1&__d=dis"] 5 rfl rfl⟩
